import Mathlib

/-!
Verification of the `dat` SQL builder library: a shallow embedding of the
fragment/placeholder engine, the INSERT builder (with its upsert clause),
the SELECT builder and the JSON-document SELECT builder, translated from
the Go sources, together with theorems settling the specification claims.

Go `interface{}` argument values are modelled by the closed type `Arg`;
Go byte strings by Lean `String`; Go slices by `List`; Go `nil` pointers
inside the sub-query lists by `Option`.  Builders that Go mutates in place
are threaded functionally: a chaining call returns the updated builder
(and, where the Go code also mutates its argument, the updated argument).
Scopes (`Scope`/`ScopeMap`) are not modelled; the embedding corresponds to
builders on which no scope was registered, the case all claims are about.
-/

namespace Dat

/-- Model of the Go scalar values appearing as bound arguments. -/
inductive ArgV where
  | int (n : Int)
  | str (s : String)
  | bool (b : Bool)
  | null
deriving DecidableEq, Repr

/-- Model of the Go interface-typed values bound to SQL placeholders:
either one scalar or one whole slice bound as a single array argument. -/
inductive Arg where
  | v (a : ArgV)
  | arr (xs : List ArgV)
deriving DecidableEq, Repr

/-- Shorthand for binding an integer scalar. -/
def Arg.int (n : Int) : Arg := .v (.int n)

/-- Shorthand for binding a string scalar. -/
def Arg.str (s : String) : Arg := .v (.str s)

/-- Shorthand for binding a boolean scalar. -/
def Arg.bool (b : Bool) : Arg := .v (.bool b)

/-- An SQL expression: text holding relative placeholders plus its bound
arguments (the library's `Expression` type). -/
structure Expression where
  sql : String
  args : List Arg
deriving DecidableEq, Repr

/-- Constructor of `Expression`, the library's `Expr(sql, args...)`. -/
def Expr (sql : String) (args : List Arg) : Expression := ⟨sql, args⟩

/-- The decimal digit character for a value below ten. -/
def digitChar (d : Nat) : Char := Char.ofNat (48 + d)

/-- Numeric value of a decimal digit character. -/
def digitVal (c : Char) : Nat := c.toNat - 48

/-- Fuel-driven digit extraction; the fuel is an upper bound on the value,
so the zero-fuel branch is unreachable from `natDigits`. -/
def natDigitsAux : Nat → Nat → List Char
  | 0, n => [digitChar n]
  | fuel + 1, n =>
    if n < 10 then [digitChar n]
    else natDigitsAux fuel (n / 10) ++ [digitChar (n % 10)]

/-- Decimal digit characters of a natural number, most significant first. -/
def natDigits (n : Nat) : List Char := natDigitsAux n n

/-- Decimal rendering of a natural number, as used for placeholder numbers. -/
def natToStr (n : Nat) : String := String.mk (natDigits n)

/-- Value of a list of decimal digit characters, most significant first. -/
def digitsToNat (ds : List Char) : Nat :=
  ds.foldl (fun a c => a * 10 + digitVal c) 0

/-- Split a character list into its leading run of decimal digits and the rest. -/
def spanDigits : List Char → List Char × List Char
  | [] => ([], [])
  | c :: cs =>
    if c.isDigit then
      let r := spanDigits cs
      (c :: r.1, r.2)
    else ([], c :: cs)

theorem spanDigits_snd_length (cs : List Char) : (spanDigits cs).2.length ≤ cs.length := by
  induction cs with
  | nil => simp [spanDigits]
  | cons c cs ih =>
    by_cases h : c.isDigit <;> simp [spanDigits, h]
    omega

/-- Modelled from the spec: the core of `remapPlaceholders` (section 4.1 of the
spec; the function itself is not among the provided sources, only its callers
are).  Scans the text and rewrites every relative marker `$k` to the absolute
marker `$(start + k - 1)`; a dollar sign not followed by a digit is copied
unchanged, as is every other character. -/
def remapCharsAux (start : Nat) : Nat → List Char → List Char
  | _, [] => []
  | 0, cs => cs
  | fuel + 1, c :: rest =>
    if c = '$' then
      if (spanDigits rest).1.isEmpty then '$' :: remapCharsAux start fuel rest
      else
        '$' :: (natDigits (start - 1 + digitsToNat (spanDigits rest).1) ++
          remapCharsAux start fuel (spanDigits rest).2)
    else c :: remapCharsAux start fuel rest

/-- The scanner applied with enough fuel for the whole text. -/
def remapChars (start : Nat) (cs : List Char) : List Char :=
  remapCharsAux start cs.length cs

/-- Modelled from the spec: `remapPlaceholders` (spec 4.1) lifted to `String`. -/
def remapPlaceholders (s : String) (start : Nat) : String :=
  String.mk (remapChars start s.data)

/-- The running render state of a `ToSQL` call: the output buffer, the
accumulated argument list, and the placeholder cursor (Go's
`placeholderStartPos`, starting at 1). -/
structure RenderState where
  buf : String
  args : List Arg
  pos : Nat
deriving DecidableEq, Repr

/-- Append text to the output buffer of a render state. -/
def appendText (st : RenderState) (s : String) : RenderState :=
  { st with buf := st.buf ++ s }

/-- Modelled from the spec: `Expression.WriteRelativeArgs` (the `compile`
primitive of spec 4.1; not among the provided sources, only its callers are).
Writes the expression's text with its relative markers rebased onto the
current cursor, appends the expression's arguments, and advances the cursor
by their count. -/
def Expression.writeRelativeArgs (e : Expression) (st : RenderState) : RenderState :=
  { buf := st.buf ++ remapPlaceholders e.sql st.pos,
    args := st.args ++ e.args,
    pos := st.pos + e.args.length }

/-- A structured view of fragment text used to state the remapping claim:
a fragment is a sequence of literal runs and relative placeholder markers. -/
inductive Piece where
  | lit (s : List Char)
  | ph (k : Nat)
deriving DecidableEq, Repr

/-- Flatten a piece sequence to the character list it denotes: a marker
`ph k` denotes the characters `$k`. -/
def flattenPieces : List Piece → List Char
  | [] => []
  | .lit s :: ps => s ++ flattenPieces ps
  | .ph k :: ps => '$' :: (natDigits k ++ flattenPieces ps)

/-- Rebase every marker of a piece by an offset, leaving literals unchanged. -/
def shiftPiece (p : Nat) : Piece → Piece
  | .lit s => .lit s
  | .ph k => .ph (p + k)

/-- The marker indices of a piece sequence, in order of appearance. -/
def phIndices : List Piece → List Nat
  | [] => []
  | .lit _ :: ps => phIndices ps
  | .ph k :: ps => k :: phIndices ps

/-- Whether the head character of what a piece sequence flattens to is a
decimal digit; used to delimit markers. -/
def headNotDigitB : List Piece → Bool
  | [] => true
  | .lit s :: _ => !(s.headD '$').isDigit
  | .ph _ :: _ => true

/-- Well-formedness of a piece sequence: literal runs are nonempty and free of
dollar signs, and no marker is followed directly by a digit character. -/
def piecesOkB : List Piece → Bool
  | [] => true
  | .lit s :: ps => (!s.isEmpty) && (!s.contains '$') && piecesOkB ps
  | .ph _ :: ps => headNotDigitB ps && piecesOkB ps

/-- A value of a column→value equality map passed to `Where`/`Having`:
a scalar, a nil interface value, a non-nil slice, or a nil slice. -/
inductive MapVal where
  | val (a : Arg)
  | null
  | slice (xs : List ArgV)
  | nilSlice
deriving DecidableEq, Repr

/-- An equality map as stored on a fragment.  Go stores a `map[string]interface{}`;
the embedding keeps the entries as an ordered list and renders them through an
iteration-order parameter (see `EqOrder`), since Go leaves the order unspecified. -/
abbrev EqMap := List (String × MapVal)

/-- A `whereFragment` of the library: raw condition text with its values,
or an equality map. -/
structure WhereFragment where
  condition : String
  values : List Arg
  equalityMap : Option EqMap := none
deriving DecidableEq, Repr

/-- The argument of `Where`/`Having`/`OrderBy`: raw text plus args, an
equality map, a prebuilt expression, or an unsupported value. -/
inductive WhereArg where
  | raw (sql : String) (args : List Arg)
  | eqMap (m : EqMap)
  | expr (e : Expression)
  | invalid
deriving DecidableEq, Repr

/-- Modelled from the spec: `newWhereFragment` (spec 4.2; the function is not
among the provided sources, only its callers are).  Normalizes the
heterogeneous predicate input into a fragment, failing on unsupported types. -/
def newWhereFragment : WhereArg → Except String WhereFragment
  | .raw s a => .ok ⟨s, a, none⟩
  | .eqMap m => .ok ⟨"", [], some m⟩
  | .expr e => .ok ⟨e.sql, e.args, none⟩
  | .invalid => .error "invalid argument passed to predicate builder"

/-- A map-iteration order: the order in which a Go `range` over an equality
map yields its entries.  Go leaves this unspecified; renders are parameterized
by it and the reference order `idOrder` keeps insertion order. -/
abbrev EqOrder := EqMap → EqMap

/-- The identity iteration order, used by the unparameterized renders. -/
def idOrder : EqOrder := fun m => m

/-- The AND separator written before a condition when one was already written. -/
def andSep (any : Bool) : String := if any then " AND " else ""

/-- Modelled from the spec: rendering of a single equality-map entry (spec 4.2,
pinned by the in-source test `TestSelectWhereMapSql`): a scalar value renders
`col = $n`, a nil value or a nil slice renders `col IS NULL`, a non-nil empty
slice renders the constant `1=0`, a one-element slice renders `col = $n`
against the sole element, and a longer slice renders `col IN $n` bound as one
array argument. -/
def renderEqEntry (col : String) (v : MapVal) (st : RenderState) (any : Bool) :
    RenderState × Bool :=
  match v with
  | .null => (appendText st (andSep any ++ "(" ++ col ++ " IS NULL)"), true)
  | .nilSlice => (appendText st (andSep any ++ "(" ++ col ++ " IS NULL)"), true)
  | .val a =>
    (⟨st.buf ++ andSep any ++ "(" ++ col ++ " = $" ++ natToStr st.pos ++ ")",
      st.args ++ [a], st.pos + 1⟩, true)
  | .slice [] => (appendText st (andSep any ++ "(1=0)"), true)
  | .slice [x] =>
    (⟨st.buf ++ andSep any ++ "(" ++ col ++ " = $" ++ natToStr st.pos ++ ")",
      st.args ++ [Arg.v x], st.pos + 1⟩, true)
  | .slice xs =>
    (⟨st.buf ++ andSep any ++ "(" ++ col ++ " IN $" ++ natToStr st.pos ++ ")",
      st.args ++ [Arg.arr xs], st.pos + 1⟩, true)

/-- Modelled from the spec: rendering of a whole equality map, entry by entry
in the given iteration order. -/
def writeEqualityMap (entries : EqMap) (st : RenderState) (any : Bool) :
    RenderState × Bool :=
  entries.foldl (fun p e => renderEqEntry e.1 e.2 p.1 p.2) (st, any)

/-- One step of the AND-joined fragment renderer: a raw condition is
parenthesized and remapped onto the running cursor with its values appended;
an equality map is rendered entry-wise in the iteration order `eqo`. -/
def andFragStep (eqo : EqOrder) (p : RenderState × Bool) (f : WhereFragment) :
    RenderState × Bool :=
  if f.condition ≠ "" then
    let st := p.1
    (⟨st.buf ++ andSep p.2 ++ "(" ++ remapPlaceholders f.condition st.pos ++ ")",
      st.args ++ f.values, st.pos + f.values.length⟩, true)
  else
    match f.equalityMap with
    | some m => writeEqualityMap (eqo m) p.1 p.2
    | none => p

/-- Modelled from the spec: `writeAndFragmentsToSQL` (used by the sources'
`ToSQL` bodies).  Renders the fragments AND-joined. -/
def writeAndFragments (eqo : EqOrder) (frags : List WhereFragment) (st : RenderState) :
    RenderState :=
  (frags.foldl (andFragStep eqo) (st, false)).1

/-- Modelled from the spec: `writeCommaFragmentsToSQL` (used by the sources'
`ToSQL` bodies).  Renders the fragments comma-joined, each remapped onto the
running cursor with its values appended; used for FROM targets and ORDER BY. -/
def writeCommaFragments (frags : List WhereFragment) (st : RenderState) : RenderState :=
  (frags.foldl (fun (p : RenderState × Bool) f =>
    let st := p.1
    (⟨st.buf ++ (if p.2 then ", " else "") ++ remapPlaceholders f.condition st.pos,
      st.args ++ f.values, st.pos + f.values.length⟩, true)) (st, false)).1

/-- Modelled from the spec: `writeConcatFragmentsToSQL` (used by the sources'
`ToSQL` bodies).  Renders the fragments space-concatenated after the FROM
list; used for JOIN fragments, whose text carries its own join keyword. -/
def writeConcatFragments (frags : List WhereFragment) (st : RenderState) : RenderState :=
  frags.foldl (fun st f =>
    ⟨st.buf ++ " " ++ remapPlaceholders f.condition st.pos,
      st.args ++ f.values, st.pos + f.values.length⟩) st

/-- The clause state of the library's `SelectBuilder` (scopes omitted). -/
structure SelectBuilder where
  isDistinct : Bool := false
  distinctColumns : List String := []
  columns : List String := []
  fors : List String := []
  tableFragments : List WhereFragment := []
  joinFragments : List WhereFragment := []
  whereFragments : List WhereFragment := []
  groupBys : List String := []
  havingFragments : List WhereFragment := []
  orderBys : List WhereFragment := []
  limitCount : Nat := 0
  limitValid : Bool := false
  offsetCount : Nat := 0
  offsetValid : Bool := false
  err : Option String := none
deriving DecidableEq, Repr

/-- The error message recorded by `SelectBuilder.Columns` on an invalid call. -/
def selectColumnsErr : String := "Select requires 1 or more columns"

/-- `SelectBuilder.Columns`: on an empty list or an empty first column it
records the error on the builder and the Go function returns a nil pointer;
otherwise it appends the columns and returns the builder.  The first result
is the builder state after the call (Go mutates through the receiver), the
second is the returned pointer, `none` standing for Go's nil. -/
def SelectBuilder.Columns (b : SelectBuilder) (cols : List String) :
    SelectBuilder × Option SelectBuilder :=
  if cols.length = 0 ∨ cols.headD "" = "" then
    ({ b with err := some selectColumnsErr }, none)
  else
    let b' := { b with columns := b.columns ++ cols }
    (b', some b')

/-- `NewSelectBuilder`: builds the default state and runs `Columns`,
discarding the returned pointer exactly as the Go constructor does. -/
def NewSelectBuilder (cols : List String) : SelectBuilder :=
  (SelectBuilder.Columns {} cols).1

/-- `SelectBuilder.Distinct`. -/
def SelectBuilder.Distinct (b : SelectBuilder) : SelectBuilder :=
  { b with isDistinct := true }

/-- `SelectBuilder.DistinctOn`. -/
def SelectBuilder.DistinctOn (b : SelectBuilder) (cols : List String) : SelectBuilder :=
  { b with isDistinct := true, distinctColumns := cols }

/-- `SelectBuilder.From`: appends a FROM target fragment. -/
def SelectBuilder.From (b : SelectBuilder) (fromStr : String) (args : List Arg) :
    SelectBuilder :=
  { b with tableFragments := b.tableFragments ++ [⟨fromStr, args, none⟩] }

/-- The shared body of the four join methods: appends a join fragment whose
text was already prefixed with the join keyword. -/
def SelectBuilder.implJoin (b : SelectBuilder) (joinStr : String) (args : List Arg) :
    SelectBuilder :=
  { b with joinFragments := b.joinFragments ++ [⟨joinStr, args, none⟩] }

/-- `SelectBuilder.Join`. -/
def SelectBuilder.Join (b : SelectBuilder) (joinStr : String) (args : List Arg) :
    SelectBuilder :=
  b.implJoin ("INNER JOIN " ++ joinStr) args

/-- `SelectBuilder.LeftJoin`. -/
def SelectBuilder.LeftJoin (b : SelectBuilder) (joinStr : String) (args : List Arg) :
    SelectBuilder :=
  b.implJoin ("LEFT JOIN " ++ joinStr) args

/-- `SelectBuilder.RightJoin`. -/
def SelectBuilder.RightJoin (b : SelectBuilder) (joinStr : String) (args : List Arg) :
    SelectBuilder :=
  b.implJoin ("RIGHT JOIN " ++ joinStr) args

/-- `SelectBuilder.FullOuterJoin`. -/
def SelectBuilder.FullOuterJoin (b : SelectBuilder) (joinStr : String) (args : List Arg) :
    SelectBuilder :=
  b.implJoin ("FULL OUTER JOIN " ++ joinStr) args

/-- `SelectBuilder.For`. -/
def SelectBuilder.For (b : SelectBuilder) (options : List String) : SelectBuilder :=
  { b with fors := options }

/-- `SelectBuilder.Where`: normalizes the input and appends it, recording a
normalization error on the builder (overwriting any previous error, as the
source does). -/
def SelectBuilder.Where (b : SelectBuilder) (w : WhereArg) : SelectBuilder :=
  match newWhereFragment w with
  | .error e => { b with err := some e }
  | .ok f => { b with whereFragments := b.whereFragments ++ [f] }

/-- `SelectBuilder.GroupBy`. -/
def SelectBuilder.GroupBy (b : SelectBuilder) (group : String) : SelectBuilder :=
  { b with groupBys := b.groupBys ++ [group] }

/-- `SelectBuilder.Having`: like `Where`, into the HAVING list. -/
def SelectBuilder.Having (b : SelectBuilder) (w : WhereArg) : SelectBuilder :=
  match newWhereFragment w with
  | .error e => { b with err := some e }
  | .ok f => { b with havingFragments := b.havingFragments ++ [f] }

/-- `SelectBuilder.OrderBy`: like `Where`, into the ORDER BY list. -/
def SelectBuilder.OrderBy (b : SelectBuilder) (w : WhereArg) : SelectBuilder :=
  match newWhereFragment w with
  | .error e => { b with err := some e }
  | .ok f => { b with orderBys := b.orderBys ++ [f] }

/-- `SelectBuilder.Limit`. -/
def SelectBuilder.Limit (b : SelectBuilder) (limit : Nat) : SelectBuilder :=
  { b with limitCount := limit, limitValid := true }

/-- `SelectBuilder.Offset`. -/
def SelectBuilder.Offset (b : SelectBuilder) (offset : Nat) : SelectBuilder :=
  { b with offsetCount := offset, offsetValid := true }

/-- `SelectBuilder.Paginate`. -/
def SelectBuilder.Paginate (b : SelectBuilder) (page perPage : Nat) : SelectBuilder :=
  (b.Limit perPage).Offset ((page - 1) * perPage)

/-- The DISTINCT clause text of a select-family statement. -/
def distinctText (b : SelectBuilder) : String :=
  if b.isDistinct then
    if b.distinctColumns = [] then "DISTINCT "
    else "DISTINCT ON (" ++ String.intercalate ", " b.distinctColumns ++ ") "
  else ""

/-- The trailing FOR clause text of a select-family statement. -/
def forsText (fors : List String) : String :=
  if fors = [] then "" else " FOR" ++ String.join (fors.map (" " ++ ·))

/-- `SelectBuilder.ToSQL`, parameterized by the map-iteration order: returns
the recorded error first, validates columns and joins, then renders the
clauses in source order onto one running render state. -/
def selectToSQLg (eqo : EqOrder) (b : SelectBuilder) : Except String (String × List Arg) :=
  match b.err with
  | some e => .error e
  | none =>
    if b.columns = [] then .error "no columns specified"
    else if b.tableFragments = [] ∧ b.joinFragments ≠ [] then
      .error "joins may only be attached if a from target is specified"
    else
      let st : RenderState :=
        ⟨"SELECT " ++ distinctText b ++ String.intercalate ", " b.columns, [], 1⟩
      let st := if b.tableFragments ≠ [] then
          writeConcatFragments b.joinFragments
            (writeCommaFragments b.tableFragments (appendText st " FROM "))
        else st
      let st := if b.whereFragments ≠ [] then
          writeAndFragments eqo b.whereFragments (appendText st " WHERE ")
        else st
      let st := if b.groupBys ≠ [] then
          appendText st (" GROUP BY " ++ String.intercalate ", " b.groupBys)
        else st
      let st := if b.havingFragments ≠ [] then
          writeAndFragments eqo b.havingFragments (appendText st " HAVING ")
        else st
      let st := if b.orderBys ≠ [] then
          writeCommaFragments b.orderBys (appendText st " ORDER BY ")
        else st
      let st := if b.limitValid then appendText st (" LIMIT " ++ natToStr b.limitCount) else st
      let st := if b.offsetValid then appendText st (" OFFSET " ++ natToStr b.offsetCount) else st
      let st := appendText st (forsText b.fors)
      .ok (st.buf, st.args)

/-- `SelectBuilder.ToSQL` with insertion-order map iteration. -/
def selectToSQL (b : SelectBuilder) : Except String (String × List Arg) :=
  selectToSQLg idOrder b

/-- `writeQuotedIdentifier`: the double-quoting used for sub-query aliases
(pinned by the doc-builder tests, which expect aliases as `"f"`). -/
def quoteIdent (s : String) : String := "\"" ++ s ++ "\""

/-- A registered sub-query: its resolved expression and its alias
(the library's `subInfo`). -/
structure SubInfo where
  expr : Expression
  aliasName : String
deriving DecidableEq, Repr

/-- The state of the library's `SelectDocBuilder`: the embedded select
builder plus the sub-query lists.  The four prunable lists hold `Option`
entries, `none` standing for an entry nulled out by `Whitelist`. -/
structure SelectDocBuilder where
  sb : SelectBuilder
  subQueriesWith : List SubInfo := []
  subQueriesMany : List (Option SubInfo) := []
  subQueriesOne : List (Option SubInfo) := []
  subQueriesVector : List (Option SubInfo) := []
  subQueriesScalar : List (Option SubInfo) := []
  innerSQL : Option Expression := none
  union : List (Option SubInfo) := []
  isParent : Bool := true
  err : Option String := none
deriving DecidableEq, Repr

/-- `NewSelectDocBuilder`: a fresh parent document builder over a fresh
select builder. -/
def NewSelectDocBuilder (cols : List String) : SelectDocBuilder :=
  { sb := NewSelectBuilder cols }

/-- Render the WITH clause list: `WITH a AS (...) , b AS (...) `. -/
def renderWithList (l : List SubInfo) (st : RenderState) : RenderState :=
  (l.foldl (fun (p : RenderState × Bool) si =>
    let st := appendText p.1 ((if p.2 then ", " else "WITH ") ++ si.aliasName ++ " AS (")
    (appendText (si.expr.writeRelativeArgs st) ") ", true)) (st, false)).1

/-- Render a prunable sub-query list with the given per-entry renderer,
skipping entries nulled out by `Whitelist`. -/
def renderSubList (render1 : SubInfo → RenderState → RenderState)
    (l : List (Option SubInfo)) (st : RenderState) : RenderState :=
  l.foldl (fun st o => match o with | none => st | some si => render1 si st) st

/-- Render one MANY binding:
`, (SELECT array_agg(dat__a.*) FROM (...) AS dat__a) AS "a"`. -/
def renderMany1 (si : SubInfo) (st : RenderState) : RenderState :=
  let st := appendText st (", (SELECT array_agg(dat__" ++ si.aliasName ++ ".*) FROM (")
  appendText (si.expr.writeRelativeArgs st)
    (") AS dat__" ++ si.aliasName ++ ") AS " ++ quoteIdent si.aliasName)

/-- Render one VECTOR binding:
`, (SELECT array_agg(dat__a.dat__scalar) FROM (...) AS dat__a(dat__scalar)) AS "a"`. -/
def renderVector1 (si : SubInfo) (st : RenderState) : RenderState :=
  let st := appendText st (", (SELECT array_agg(dat__" ++ si.aliasName ++ ".dat__scalar) FROM (")
  appendText (si.expr.writeRelativeArgs st)
    (") AS dat__" ++ si.aliasName ++ "(dat__scalar)) AS " ++ quoteIdent si.aliasName)

/-- Render one ONE binding:
`, (SELECT row_to_json(dat__a.*) FROM (...) AS dat__a) AS "a"`. -/
def renderOne1 (si : SubInfo) (st : RenderState) : RenderState :=
  let st := appendText st (", (SELECT row_to_json(dat__" ++ si.aliasName ++ ".*) FROM (")
  appendText (si.expr.writeRelativeArgs st)
    (") AS dat__" ++ si.aliasName ++ ") AS " ++ quoteIdent si.aliasName)

/-- Render one SCALAR binding:
`, (SELECT dat__a.dat__scalar FROM (...) AS dat__a(dat__scalar) limit 1) AS "a"`. -/
def renderScalar1 (si : SubInfo) (st : RenderState) : RenderState :=
  let st := appendText st (", (SELECT dat__" ++ si.aliasName ++ ".dat__scalar FROM (")
  appendText (si.expr.writeRelativeArgs st)
    (") AS dat__" ++ si.aliasName ++ "(dat__scalar) limit 1) AS " ++ quoteIdent si.aliasName)

/-- Render one UNION binding; the stored alias is the keyword spacing,
`" "` for UNION and `" ALL "` for UNION ALL. -/
def renderUnion1 (si : SubInfo) (st : RenderState) : RenderState :=
  let st := appendText st (" UNION " ++ si.aliasName ++ " ")
  appendText (si.expr.writeRelativeArgs st) " "

/-- The body of `SelectDocBuilder.ToSQL` after the wrapping prefix: distinct
clause, projected columns, the four sub-query lists, then either the raw
inner SQL or the FROM/WHERE/UNION/GROUP BY/HAVING/ORDER BY/LIMIT/OFFSET/FOR
tail, in source order.  Independent of `isParent`. -/
def renderDocBody (eqo : EqOrder) (b : SelectDocBuilder) (st : RenderState) : RenderState :=
  let st := appendText st (distinctText b.sb)
  let st := appendText st (String.intercalate ", " b.sb.columns)
  let st := renderSubList renderMany1 b.subQueriesMany st
  let st := renderSubList renderVector1 b.subQueriesVector st
  let st := renderSubList renderOne1 b.subQueriesOne st
  let st := renderSubList renderScalar1 b.subQueriesScalar st
  match b.innerSQL with
  | some e => e.writeRelativeArgs st
  | none =>
    let st := if b.sb.tableFragments ≠ [] then
        writeConcatFragments b.sb.joinFragments
          (appendText (writeCommaFragments b.sb.tableFragments (appendText st " FROM ")) " ")
      else st
    let st := if b.sb.whereFragments ≠ [] then
        writeAndFragments eqo b.sb.whereFragments (appendText st " WHERE ")
      else st
    let st := renderSubList renderUnion1 b.union st
    let st := if b.sb.groupBys ≠ [] then
        appendText st (" GROUP BY " ++ String.intercalate ", " b.sb.groupBys)
      else st
    let st := if b.sb.havingFragments ≠ [] then
        writeAndFragments eqo b.sb.havingFragments (appendText st " HAVING ")
      else st
    let st := if b.sb.orderBys ≠ [] then
        writeCommaFragments b.sb.orderBys (appendText st " ORDER BY ")
      else st
    let st := if b.sb.limitValid then appendText st (" LIMIT " ++ natToStr b.sb.limitCount) else st
    let st := if b.sb.offsetValid then
        appendText st (" OFFSET " ++ natToStr b.sb.offsetCount)
      else st
    appendText st (forsText b.sb.fors)

/-- The wrapping prefix of a document statement: parents wrap the body in
`row_to_json`, embedded builders render a bare SELECT. -/
def docWrapPre (isParent : Bool) : String :=
  if isParent then "SELECT row_to_json(dat__item.*) FROM ( SELECT " else "SELECT "

/-- The wrapping suffix of a document statement. -/
def docWrapSuf (isParent : Bool) : String :=
  if isParent then ") as dat__item" else ""

/-- The state after rendering the CTE list of a document statement from the
initial state. -/
def docWithState (b : SelectDocBuilder) : RenderState :=
  renderWithList b.subQueriesWith ⟨"", [], 1⟩

/-- The state after rendering the body of a document statement, continuing
the argument list and cursor of the CTE list into an empty body buffer. -/
def docBodyState (eqo : EqOrder) (b : SelectDocBuilder) : RenderState :=
  renderDocBody eqo b ⟨"", (docWithState b).args, (docWithState b).pos⟩

/-- `SelectDocBuilder.ToSQL`, parameterized by the map-iteration order:
returns the builder's recorded error first, validates that columns or
prunable sub-query slots exist and that joins come with a FROM target,
then renders the CTE list, the wrap prefix, the body and the wrap suffix. -/
def docToSQLg (eqo : EqOrder) (b : SelectDocBuilder) : Except String (String × List Arg) :=
  match b.err with
  | some e => .error e
  | none =>
    if b.sb.columns.length + b.subQueriesMany.length + b.subQueriesOne.length +
        b.subQueriesScalar.length + b.subQueriesVector.length = 0 then
      .error "no columns specified"
    else if b.sb.tableFragments = [] ∧ b.sb.joinFragments ≠ [] then
      .error "joins may only be attached if a from target is specified"
    else
      .ok ((docWithState b).buf ++ docWrapPre b.isParent ++ (docBodyState eqo b).buf ++
        docWrapSuf b.isParent, (docBodyState eqo b).args)

/-- `SelectDocBuilder.ToSQL` with insertion-order map iteration. -/
def docToSQL (b : SelectDocBuilder) : Except String (String × List Arg) :=
  docToSQLg idOrder b

/-- The sub-query argument of `With`/`Many`/`One`/`Vector`/`Scalar`/`Union`:
raw SQL text, a document builder, a plain select builder, or an unsupported
value (the default case of the source's type switch). -/
inductive SqlOrBuilder where
  | str (s : String)
  | doc (b : SelectDocBuilder)
  | sel (b : SelectBuilder)
  | other
deriving DecidableEq, Repr

/-- The type error produced by `storeExpr` for an unsupported argument. -/
def storeExprErr (name : String) : String :=
  name ++ ": sqlOrbuilder accepts only \x7bstring, Builder, *SelectDocBuilder\x7d type"

/-- `storeExpr`: resolves a sub-query argument to an expression at hand-off
time.  A document builder has its `isParent` flag set false before being
rendered — the Go code mutates the child through its pointer, modelled here
by also returning the updated argument.  Returns the recorded error (none on
success, matching the shadowed error of the source), the resolved entry, and
the updated argument. -/
def storeExpr (name column : String) (sob : SqlOrBuilder) (a : List Arg) :
    Option String × Option SubInfo × SqlOrBuilder :=
  match sob with
  | .other => (some (storeExprErr name), none, .other)
  | .doc c =>
    let c2 := { c with isParent := false }
    match docToSQL c2 with
    | .error e => (some e, none, .doc c2)
    | .ok r => (none, some ⟨⟨r.1, r.2⟩, column⟩, .doc c2)
  | .sel sb =>
    match selectToSQL sb with
    | .error e => (some e, none, .sel sb)
    | .ok r => (none, some ⟨⟨r.1, r.2⟩, column⟩, .sel sb)
  | .str s => (none, some ⟨⟨s, a⟩, column⟩, .str s)

/-- Append a resolved entry to a prunable sub-query list, when resolution
succeeded. -/
def pushSub (l : List (Option SubInfo)) (o : Option SubInfo) : List (Option SubInfo) :=
  match o with
  | some si => l ++ [some si]
  | none => l

/-- `SelectDocBuilder.With` (without the slice-to-virtual-table branch, which
needs reflection): guarded by the recorded error, then stores the resolved
expression in the WITH list.  Returns the updated builder and argument. -/
def SelectDocBuilder.With (b : SelectDocBuilder) (column : String) (sob : SqlOrBuilder)
    (a : List Arg) : SelectDocBuilder × SqlOrBuilder :=
  if b.err = none then
    let r := storeExpr "SelectDocBuilder.With" column sob a
    ({ b with
        err := r.1,
        subQueriesWith := b.subQueriesWith ++ (match r.2.1 with | some si => [si] | none => []) },
      r.2.2)
  else (b, sob)

/-- `SelectDocBuilder.Many`: stores the resolved expression in the MANY list
and unconditionally overwrites the recorded error with the resolution result,
exactly as the source assignment does. -/
def SelectDocBuilder.Many (b : SelectDocBuilder) (column : String) (sob : SqlOrBuilder)
    (a : List Arg) : SelectDocBuilder × SqlOrBuilder :=
  let r := storeExpr "SelectDocBuilder.Many" column sob a
  ({ b with err := r.1, subQueriesMany := pushSub b.subQueriesMany r.2.1 }, r.2.2)

/-- `SelectDocBuilder.Vector`: like `Many`, into the VECTOR list. -/
def SelectDocBuilder.Vector (b : SelectDocBuilder) (column : String) (sob : SqlOrBuilder)
    (a : List Arg) : SelectDocBuilder × SqlOrBuilder :=
  let r := storeExpr "SelectDocBuilder.Vector" column sob a
  ({ b with err := r.1, subQueriesVector := pushSub b.subQueriesVector r.2.1 }, r.2.2)

/-- `SelectDocBuilder.One`: like `Many`, into the ONE list. -/
def SelectDocBuilder.One (b : SelectDocBuilder) (column : String) (sob : SqlOrBuilder)
    (a : List Arg) : SelectDocBuilder × SqlOrBuilder :=
  let r := storeExpr "SelectDocBuilder.One" column sob a
  ({ b with err := r.1, subQueriesOne := pushSub b.subQueriesOne r.2.1 }, r.2.2)

/-- `SelectDocBuilder.Scalar`: like `Many`, into the SCALAR list. -/
def SelectDocBuilder.Scalar (b : SelectDocBuilder) (column : String) (sob : SqlOrBuilder)
    (a : List Arg) : SelectDocBuilder × SqlOrBuilder :=
  let r := storeExpr "SelectDocBuilder.Scalar" column sob a
  ({ b with err := r.1, subQueriesScalar := pushSub b.subQueriesScalar r.2.1 }, r.2.2)

/-- `SelectDocBuilder.Union`: like `Many`, into the union list, with the
keyword spacing stored as the alias. -/
def SelectDocBuilder.Union (b : SelectDocBuilder) (sob : SqlOrBuilder)
    (a : List Arg) : SelectDocBuilder × SqlOrBuilder :=
  let r := storeExpr "SelectDocBuilder.Union" " " sob a
  ({ b with err := r.1, union := pushSub b.union r.2.1 }, r.2.2)

/-- `SelectDocBuilder.UnionAll`: like `Union`, with the `ALL` spacing. -/
def SelectDocBuilder.UnionAll (b : SelectDocBuilder) (sob : SqlOrBuilder)
    (a : List Arg) : SelectDocBuilder × SqlOrBuilder :=
  let r := storeExpr "SelectDocBuilder.UnionAll" " ALL " sob a
  ({ b with err := r.1, union := pushSub b.union r.2.1 }, r.2.2)

/-- `SelectDocBuilder.From`, delegating to the embedded select builder. -/
def SelectDocBuilder.From (b : SelectDocBuilder) (fromStr : String) (args : List Arg) :
    SelectDocBuilder :=
  { b with sb := b.sb.From fromStr args }

/-- `SelectDocBuilder.Where`, delegating to the embedded select builder. -/
def SelectDocBuilder.Where (b : SelectDocBuilder) (w : WhereArg) : SelectDocBuilder :=
  { b with sb := b.sb.Where w }

/-- `SelectDocBuilder.Columns`, delegating to the embedded select builder
(the doc wrapper discards the returned pointer and returns the doc builder). -/
def SelectDocBuilder.Columns (b : SelectDocBuilder) (cols : List String) : SelectDocBuilder :=
  { b with sb := (b.sb.Columns cols).1 }

/-- The trailing-`*` entries of a whitelist call, with the star dropped:
these match aliases by prefix. -/
def whitelistMatchCols (cols : List String) : List String :=
  ((cols.filter (fun c => c ≠ "")).filter (fun c => c.endsWith "*")).map
    (fun c => c.dropRight 1)

/-- The plain entries of a whitelist call: these match aliases exactly. -/
def whitelistEqCols (cols : List String) : List String :=
  (cols.filter (fun c => c ≠ "")).filter (fun c => !c.endsWith "*")

/-- Whether an alias survives a whitelist call: an exact match of a plain
entry or a prefix match of a trailing-`*` entry. -/
def aliasKeep (matchCols eqCols : List String) (al : String) : Bool :=
  matchCols.any (fun c => c.length ≤ al.length && al.take c.length == c) ||
    eqCols.any (fun c => al == c)

/-- Nulls out a sub-query slot whose alias does not survive the whitelist. -/
def pruneEntry (matchCols eqCols : List String) (o : Option SubInfo) : Option SubInfo :=
  o.bind (fun si => if aliasKeep matchCols eqCols si.aliasName then some si else none)

/-- `SelectDocBuilder.Whitelist`: an empty call or one containing the literal
`"*"` is a no-op; otherwise every MANY/ONE/VECTOR/SCALAR slot whose alias is
neither an exact match of a plain entry nor a prefix match of a trailing-`*`
entry is nulled out.  WITH and union bindings are untouched. -/
def SelectDocBuilder.Whitelist (b : SelectDocBuilder) (cols : List String) :
    SelectDocBuilder :=
  if cols = [] then b
  else if cols.any (fun c => c = "*") then b
  else
    let mc := whitelistMatchCols cols
    let ec := whitelistEqCols cols
    { b with
        subQueriesMany := b.subQueriesMany.map (pruneEntry mc ec),
        subQueriesOne := b.subQueriesOne.map (pruneEntry mc ec),
        subQueriesVector := b.subQueriesVector.map (pruneEntry mc ec),
        subQueriesScalar := b.subQueriesScalar.map (pruneEntry mc ec) }

/-- The ON CONFLICT keyword constant for the UPDATE action. -/
def updateAction : String := "UPDATE"

/-- The keyword referencing the proposed row in an upsert SET value. -/
def excludedColumn : String := "EXCLUDED"

/-- `writeIdentifier`: column names in INSERT statements render unquoted for
the plain identifiers exercised here (pinned by `TestInsertDuplicateColumns`,
whose expected SQL is `INSERT INTO a (status) VALUES ($1)`). -/
def writeIdentifier (s : String) : String := s

/-- The library's `onConflictTargetType`: the conflict target of an
ON CONFLICT clause. -/
structure OnConflictTarget where
  column : String := ""
  constraint : String := ""
  indexPredicate : String := ""
deriving DecidableEq, Repr

/-- `hasOneConflictTarget`: exactly one of column/constraint is set. -/
def hasOneConflictTarget (t : OnConflictTarget) : Bool :=
  let hasColumn := t.column.length ≠ 0
  let hasConstraint := t.constraint.length ≠ 0
  (hasColumn && !hasConstraint) || (!hasColumn && hasConstraint)

/-- A value of an upsert SET pair: a prebuilt expression, a string (which may
be the raw `EXCLUDED.column` reference), or any other bound value. -/
inductive SetValue where
  | expr (e : Expression)
  | str (s : String)
  | arg (a : Arg)
deriving DecidableEq, Repr

/-- The library's `setClause`: one column/value pair of a DO UPDATE SET. -/
structure SetClause where
  column : String
  value : SetValue
deriving DecidableEq, Repr

/-- The library's `onConflictActionType`. -/
structure OnConflictAction where
  action : String := ""
  setClauses : List SetClause := []
  whereFragments : List WhereFragment := []
deriving DecidableEq, Repr

/-- Modelled from the spec: a record handed to `Record` is an ordered list of
tagged columns with their values, the Field Mapper's view of a struct
(spec 4.3; the reflection code is not among the provided sources). -/
abbrev Rec := List (String × Arg)

/-- The state of the library's `InsertBuilder`. -/
structure InsertBuilder where
  table : String
  cols : List String := []
  isBlacklist : Bool := false
  vals : List (List Arg) := []
  records : List Rec := []
  onConflictTarget : OnConflictTarget := {}
  onConflictAction : OnConflictAction := {}
  returnings : List String := []
  err : Option String := none
deriving DecidableEq, Repr

/-- `NewInsertBuilder` / `InsertInto`: nil (here `none`) for an empty table
name, else a fresh builder. -/
def InsertInto (table : String) : Option InsertBuilder :=
  if table = "" then none else some { table := table }

/-- `InsertBuilder.Whitelist`: replaces the column list. -/
def InsertBuilder.Whitelist (b : InsertBuilder) (cols : List String) : InsertBuilder :=
  { b with cols := cols }

/-- `InsertBuilder.Columns`, an alias of `Whitelist`. -/
def InsertBuilder.Columns (b : InsertBuilder) (cols : List String) : InsertBuilder :=
  b.Whitelist cols

/-- `InsertBuilder.Blacklist`: marks the column list as a blacklist. -/
def InsertBuilder.Blacklist (b : InsertBuilder) (cols : List String) : InsertBuilder :=
  { b with isBlacklist := true, cols := cols }

/-- `InsertBuilder.Values`: appends one literal row. -/
def InsertBuilder.Values (b : InsertBuilder) (row : List Arg) : InsertBuilder :=
  { b with vals := b.vals ++ [row] }

/-- `InsertBuilder.Record`: appends one record. -/
def InsertBuilder.Record (b : InsertBuilder) (rec : Rec) : InsertBuilder :=
  { b with records := b.records ++ [rec] }

/-- `InsertBuilder.OnConflictColumn`. -/
def InsertBuilder.OnConflictColumn (b : InsertBuilder) (column : String) : InsertBuilder :=
  { b with onConflictTarget := { b.onConflictTarget with column := column } }

/-- `InsertBuilder.OnConflictConstraint`. -/
def InsertBuilder.OnConflictConstraint (b : InsertBuilder) (constraint : String) :
    InsertBuilder :=
  { b with onConflictTarget := { b.onConflictTarget with constraint := constraint } }

/-- `InsertBuilder.OnConflictWhere`: column target plus index predicate. -/
def InsertBuilder.OnConflictWhere (b : InsertBuilder) (column indexPredicate : String) :
    InsertBuilder :=
  { b with onConflictTarget :=
      { b.onConflictTarget with column := column, indexPredicate := indexPredicate } }

/-- The error recorded by `Set` when no valid conflict target exists. -/
def setNeedsTargetErr : String :=
  "A conflict_target must be provided for ON CONFLICT DO UPDATE"

/-- `InsertBuilder.Set`: without a valid conflict target it records the error
(only if none is recorded yet) and leaves the builder otherwise unchanged;
with one it switches the action to UPDATE and appends the pair. -/
def InsertBuilder.Set (b : InsertBuilder) (column : String) (value : SetValue) :
    InsertBuilder :=
  if !hasOneConflictTarget b.onConflictTarget then
    if b.err = none then { b with err := some setNeedsTargetErr } else b
  else
    { b with onConflictAction :=
        { b.onConflictAction with
            action := updateAction,
            setClauses := b.onConflictAction.setClauses ++ [⟨column, value⟩] } }

/-- `InsertBuilder.SetMap`: `Set` folded over the map entries (Go iterates the
argument map in unspecified order; the entry list fixes one such order). -/
def InsertBuilder.SetMap (b : InsertBuilder) (clauses : List (String × SetValue)) :
    InsertBuilder :=
  clauses.foldl (fun b e => b.Set e.1 e.2) b

/-- The error recorded by `InsertBuilder.Where` before any `Set`. -/
def whereNeedsUpdateErr : String := "conflict_action must be equal to UPDATE"

/-- `InsertBuilder.Where`: requires the action to be UPDATE (recording the
error only if none is recorded yet), then normalizes and appends the
fragment (a normalization failure overwrites any recorded error, as the
source does). -/
def InsertBuilder.Where (b : InsertBuilder) (w : WhereArg) : InsertBuilder :=
  if b.onConflictAction.action ≠ updateAction then
    if b.err = none then { b with err := some whereNeedsUpdateErr } else b
  else
    match newWhereFragment w with
    | .error e => { b with err := some e }
    | .ok f =>
      { b with onConflictAction :=
          { b.onConflictAction with
              whereFragments := b.onConflictAction.whereFragments ++ [f] } }

/-- `InsertBuilder.Returning`: replaces the RETURNING column list. -/
def InsertBuilder.Returning (b : InsertBuilder) (cols : List String) : InsertBuilder :=
  { b with returnings := cols }

/-- `InsertBuilder.Pair`: appends the column and extends the single literal
row, recording an error (overwriting any recorded one, as the source does)
when more than one row exists. -/
def InsertBuilder.Pair (b : InsertBuilder) (column : String) (value : Arg) : InsertBuilder :=
  let b := { b with cols := b.cols ++ [column] }
  match b.vals with
  | [] => { b with vals := [[value]] }
  | [row] => { b with vals := [row ++ [value]] }
  | _ => { b with err := some "pair only allows you to specify 1 record to insert" }

/-- Modelled from the spec: `reflectColumns` (Field Mapper, spec 4.3) — the
ordered tag list of a record's fields. -/
def reflectColumns (rec : Rec) : List String := rec.map (·.1)

/-- Modelled from the spec: `reflectExcludeColumns` (Field Mapper, spec 4.3) —
the record's tag list minus the blacklisted columns. -/
def reflectExcludeColumns (rec : Rec) (blacklist : List String) : List String :=
  (rec.map (·.1)).filter (fun c => c ∉ blacklist)

/-- Modelled from the spec: `valuesFor` (Field Mapper, spec 4.3) — one value
per resolved column, read from the record's tagged fields; a record lacking a
required tagged field fails. -/
def valuesFor (rec : Rec) : List String → Except String (List Arg)
  | [] => .ok []
  | c :: cols =>
    match rec.lookup c with
    | none => .error ("no value found for column " ++ c)
    | some a =>
      match valuesFor rec cols with
      | .error e => .error e
      | .ok vs => .ok (a :: vs)

/-- The value rows extracted from a record list against a resolved column
list, failing on the first record that misses a column. -/
def recordsVals (cols : List String) : List Rec → Except String (List (List Arg))
  | [] => .ok []
  | rec :: recs =>
    match valuesFor rec cols with
    | .error e => .error e
    | .ok vs =>
      match recordsVals cols recs with
      | .error e => .error e
      | .ok rvs => .ok (vs :: rvs)

/-- The column list `ToSQL` resolves against: with records, a blacklist is
expanded against the first record and a leading `"*"` expands to the first
record's full tag list. -/
def resolveInsertCols (b : InsertBuilder) : List String :=
  let cols := b.cols
  let cols := if b.records ≠ [] ∧ b.isBlacklist then
      reflectExcludeColumns (b.records.headD []) cols
    else cols
  if b.records ≠ [] ∧ cols.headD "" = "*" then reflectColumns (b.records.headD [])
  else cols

/-- A list of strings joined by a separator, one write per element exactly as
the source loops do. -/
def sepJoin (sep : String) : List String → String
  | [] => ""
  | [a] => a
  | a :: rest => a ++ sep ++ sepJoin sep rest

/-- Modelled from the spec: `buildPlaceholders` — one parenthesized group of
sequential placeholders (pinned by the insert tests: `($1,$2)`). -/
def placeholderGroup (start len : Nat) : String :=
  "(" ++ sepJoin "," ((List.range' start len).map (fun n => "$" ++ natToStr n)) ++ ")"

/-- The placeholder groups of a run of `n` rows of width `W` starting at the
given cursor, each group advancing the cursor by the width. -/
def rowGroups (W : Nat) : Nat → Nat → List String
  | _, 0 => []
  | start, n + 1 => placeholderGroup start W :: rowGroups W (start + W) n

/-- The literal-rows section of an INSERT: one group per row with sequential
numbering and comma separators, flattened arguments, and the final cursor. -/
def valuesRows : List (List Arg) → Nat → String × List Arg × Nat
  | [], start => ("", [], start)
  | [row], start => (placeholderGroup start row.length, row, start + row.length)
  | row :: rest, start =>
    let r := valuesRows rest (start + row.length)
    (placeholderGroup start row.length ++ "," ++ r.1, row ++ r.2.1, r.2.2)

/-- The records section of an INSERT: each record's values are extracted for
the resolved columns and rendered as one further placeholder group, with a
leading comma once anything was already emitted. -/
def recordsRows (recs : List Rec) (cols : List String) (start : Nat) (anyPrev : Bool) :
    Except String (String × List Arg × Nat) :=
  match recs with
  | [] => .ok ("", [], start)
  | rec :: rest =>
    match valuesFor rec cols with
    | .error e => .error e
    | .ok vs =>
      match recordsRows rest cols (start + vs.length) true with
      | .error e => .error e
      | .ok r =>
        .ok ((if anyPrev then "," else "") ++ placeholderGroup start vs.length ++ r.1,
          vs ++ r.2.1, r.2.2)

/-- One DO UPDATE SET pair: an expression value is remapped onto the cursor
with its arguments appended; a string value equal to `EXCLUDED.` followed by
the pair's column renders raw with no argument; anything else binds one fresh
placeholder. -/
def renderSetClause1 (c : SetClause) (pos : Nat) : String × List Arg × Nat :=
  match c.value with
  | .expr e =>
    (writeIdentifier c.column ++ " = " ++ remapPlaceholders e.sql pos, e.args,
      pos + e.args.length)
  | .str s =>
    if s = excludedColumn ++ "." ++ c.column then
      (writeIdentifier c.column ++ " = " ++ s, [], pos)
    else
      (writeIdentifier c.column ++ " = $" ++ natToStr pos, [Arg.str s], pos + 1)
  | .arg a => (writeIdentifier c.column ++ " = $" ++ natToStr pos, [a], pos + 1)

/-- The DO UPDATE SET pair list, comma-joined with the cursor threaded. -/
def renderSetClauses : List SetClause → Nat → String × List Arg × Nat
  | [], pos => ("", [], pos)
  | [c], pos => renderSetClause1 c pos
  | c :: rest, pos =>
    let r1 := renderSetClause1 c pos
    let r := renderSetClauses rest r1.2.2
    (r1.1 ++ ", " ++ r.1, r1.2.1 ++ r.2.1, r.2.2)

/-- The rendered conflict target: `(column)` with an optional
` WHERE indexPredicate`, or `ON CONSTRAINT name`. -/
def conflictTargetText (t : OnConflictTarget) : String :=
  if t.column.length > 0 then
    "(" ++ t.column ++ ")" ++
      (if t.indexPredicate.length > 0 then " WHERE " ++ t.indexPredicate else "")
  else if t.constraint.length > 0 then "ON CONSTRAINT " ++ t.constraint
  else ""

/-- The whole ON CONFLICT clause, empty when no single conflict target is
set: the target followed by ` DO NOTHING`, or by the DO UPDATE SET pairs and
their optional AND-joined WHERE tail. -/
def onConflictClause (eqo : EqOrder) (b : InsertBuilder) (start : Nat) :
    String × List Arg :=
  if hasOneConflictTarget b.onConflictTarget then
    if b.onConflictAction.action ≠ updateAction then
      (" ON CONFLICT " ++ conflictTargetText b.onConflictTarget ++ " DO NOTHING", [])
    else
      let r := renderSetClauses b.onConflictAction.setClauses start
      let stw :=
        if b.onConflictAction.whereFragments ≠ [] then
          writeAndFragments eqo b.onConflictAction.whereFragments ⟨" WHERE ", [], r.2.2⟩
        else ⟨"", [], r.2.2⟩
      (" ON CONFLICT " ++ conflictTargetText b.onConflictTarget ++ " DO UPDATE SET " ++
        r.1 ++ stw.buf, r.2.1 ++ stw.args)
  else ("", [])

/-- The trailing RETURNING clause. -/
def returningText (cols : List String) : String :=
  if cols = [] then ""
  else " RETURNING " ++ String.intercalate "," (cols.map writeIdentifier)

/-- `InsertBuilder.ToSQL`, parameterized by the map-iteration order: returns
the recorded error first, runs the validation chain in source order, resolves
the column list, then renders the column list, the literal rows, the record
rows, the ON CONFLICT clause and the RETURNING clause. -/
def insertToSQLg (eqo : EqOrder) (b : InsertBuilder) : Except String (String × List Arg) :=
  match b.err with
  | some e => .error e
  | none =>
    if b.table.length = 0 then .error "no table specified"
    else if b.cols.length = 0 then .error "no columns specified"
    else if b.vals.length = 0 ∧ b.records.length = 0 then
      .error "no values or records specified"
    else if b.records.length = 0 ∧ b.cols.headD "" = "*" then
      .error "\"*\" can only be used in conjunction with Record"
    else if b.records.length = 0 ∧ b.isBlacklist then
      .error "Blacklist can only be used in conjunction with Record"
    else
      let cols := resolveInsertCols b
      let rv := valuesRows b.vals 1
      match recordsRows b.records cols rv.2.2 (b.vals.length > 0) with
      | .error e => .error e
      | .ok rr =>
        let conflict := onConflictClause eqo b rr.2.2
        .ok ("INSERT INTO " ++ b.table ++ " (" ++
            String.intercalate "," (cols.map writeIdentifier) ++ ") VALUES " ++
            rv.1 ++ rr.1 ++ conflict.1 ++ returningText b.returnings,
          rv.2.1 ++ rr.2.1 ++ conflict.2)

/-- `InsertBuilder.ToSQL` with insertion-order map iteration. -/
def insertToSQL (b : InsertBuilder) : Except String (String × List Arg) :=
  insertToSQLg idOrder b

theorem digitVal_digitChar (d : Nat) (h : d < 10) : digitVal (digitChar d) = d := by
  interval_cases d <;> decide

theorem isDigit_digitChar (d : Nat) (h : d < 10) : (digitChar d).isDigit = true := by
  interval_cases d <;> decide

theorem natDigitsAux_ne_nil (fuel n : Nat) : natDigitsAux fuel n ≠ [] := by
  cases fuel with
  | zero => simp [natDigitsAux]
  | succ fuel =>
    simp only [natDigitsAux]
    split <;> simp

theorem natDigits_ne_nil (n : Nat) : natDigits n ≠ [] := natDigitsAux_ne_nil n n

theorem natDigitsAux_all_digit :
    ∀ fuel n, n ≤ fuel → ∀ c ∈ natDigitsAux fuel n, c.isDigit = true := by
  intro fuel
  induction fuel with
  | zero =>
    intro n hn c hc
    have hz : n = 0 := by omega
    subst hz
    simp [natDigitsAux] at hc
    subst hc
    decide
  | succ fuel ih =>
    intro n hn c hc
    simp only [natDigitsAux] at hc
    split at hc
    · next h =>
      simp at hc
      subst hc
      exact isDigit_digitChar _ h
    · next h =>
      rcases List.mem_append.mp hc with h1 | h1
      · have hlt : n / 10 < n := Nat.div_lt_self (by omega) (by omega)
        exact ih (n / 10) (by omega) c h1
      · simp at h1
        subst h1
        exact isDigit_digitChar _ (Nat.mod_lt _ (by omega))

theorem natDigits_all_digit (n : Nat) : ∀ c ∈ natDigits n, c.isDigit = true :=
  natDigitsAux_all_digit n n (le_refl n)

theorem digitsToNat_append (ds : List Char) (c : Char) :
    digitsToNat (ds ++ [c]) = digitsToNat ds * 10 + digitVal c := by
  simp [digitsToNat, List.foldl_append]

theorem digitsToNat_natDigitsAux :
    ∀ fuel n, n ≤ fuel → digitsToNat (natDigitsAux fuel n) = n := by
  intro fuel
  induction fuel with
  | zero =>
    intro n hn
    have hz : n = 0 := by omega
    subst hz
    decide
  | succ fuel ih =>
    intro n hn
    simp only [natDigitsAux]
    split
    · next h => simp [digitsToNat, digitVal_digitChar n h]
    · next h =>
      have hlt : n / 10 < n := Nat.div_lt_self (by omega) (by omega)
      rw [digitsToNat_append, ih (n / 10) (by omega),
        digitVal_digitChar _ (Nat.mod_lt _ (by omega))]
      omega

theorem digitsToNat_natDigits (n : Nat) : digitsToNat (natDigits n) = n :=
  digitsToNat_natDigitsAux n n (le_refl n)

theorem spanDigits_digits_append (ds t : List Char) (hd : ∀ c ∈ ds, c.isDigit = true)
    (ht : ((t.headD '$').isDigit : Bool) = false) : spanDigits (ds ++ t) = (ds, t) := by
  induction ds with
  | nil =>
    cases t with
    | nil => simp [spanDigits]
    | cons c cs =>
      simp only [List.headD_cons] at ht
      simp [spanDigits, ht]
  | cons c ds ih =>
    have hc : c.isDigit = true := hd c (by simp)
    have hrest : ∀ x ∈ ds, x.isDigit = true := fun x hx => hd x (by simp [hx])
    simp [spanDigits, hc, ih hrest]

theorem remapCharsAux_congr (start : Nat) :
    ∀ fuel fuel2 cs, cs.length ≤ fuel → cs.length ≤ fuel2 →
      remapCharsAux start fuel cs = remapCharsAux start fuel2 cs := by
  intro fuel
  induction fuel with
  | zero =>
    intro fuel2 cs h1 _
    have hz : cs = [] := List.eq_nil_of_length_eq_zero (by omega)
    subst hz
    cases fuel2 <;> rfl
  | succ fuel ih =>
    intro fuel2 cs h1 h2
    cases cs with
    | nil => cases fuel2 <;> rfl
    | cons c rest =>
      cases fuel2 with
      | zero => simp at h2
      | succ f2 =>
        simp only [List.length_cons] at h1 h2
        have hr : rest.length ≤ fuel := by omega
        have hr2 : rest.length ≤ f2 := by omega
        have hs2 : (spanDigits rest).2.length ≤ rest.length := spanDigits_snd_length rest
        simp only [remapCharsAux]
        by_cases hc : c = '$'
        · rw [if_pos hc, if_pos hc]
          by_cases he : (spanDigits rest).1.isEmpty
          · rw [if_pos he, if_pos he, ih f2 rest hr hr2]
          · rw [if_neg he, if_neg he, ih f2 _ (by omega) (by omega)]
        · rw [if_neg hc, if_neg hc, ih f2 rest hr hr2]

theorem remapCharsAux_cons (start fuel : Nat) (c : Char) (rest : List Char) :
    remapCharsAux start (fuel + 1) (c :: rest) =
      if c = '$' then
        if (spanDigits rest).1.isEmpty then '$' :: remapCharsAux start fuel rest
        else
          '$' :: (natDigits (start - 1 + digitsToNat (spanDigits rest).1) ++
            remapCharsAux start fuel (spanDigits rest).2)
      else c :: remapCharsAux start fuel rest := rfl

theorem remapChars_nil (start : Nat) : remapChars start [] = [] := rfl

theorem remapChars_cons_nondollar (start : Nat) (c : Char) (cs : List Char) (h : c ≠ '$') :
    remapChars start (c :: cs) = c :: remapChars start cs := by
  simp only [remapChars, List.length_cons, remapCharsAux_cons, if_neg h]

theorem remapChars_append_nodollar (start : Nat) (s t : List Char)
    (h : ∀ c ∈ s, c ≠ '$') : remapChars start (s ++ t) = s ++ remapChars start t := by
  induction s with
  | nil => simp
  | cons c s ih =>
    have hc : c ≠ '$' := h c (by simp)
    have hrest : ∀ x ∈ s, x ≠ '$' := fun x hx => h x (by simp [hx])
    simp [remapChars_cons_nondollar start c _ hc, ih hrest]

theorem remapChars_marker (start : Nat) (ds t : List Char)
    (hd : ∀ c ∈ ds, c.isDigit = true) (hne : ds ≠ [])
    (ht : ((t.headD '$').isDigit : Bool) = false) :
    remapChars start ('$' :: (ds ++ t)) =
      '$' :: (natDigits (start - 1 + digitsToNat ds) ++ remapChars start t) := by
  have hspan := spanDigits_digits_append ds t hd ht
  simp only [remapChars, List.length_cons, remapCharsAux_cons, hspan]
  rw [if_pos trivial, if_neg (by simp [List.isEmpty_iff, hne])]
  exact congrArg (fun l => '$' :: (natDigits (start - 1 + digitsToNat ds) ++ l))
    (remapCharsAux_congr start (ds ++ t).length t.length t (by simp) (le_refl _))

theorem flatten_headD_not_digit (ps : List Piece) (hok : piecesOkB ps = true)
    (hh : headNotDigitB ps = true) :
    (((flattenPieces ps).headD '$').isDigit : Bool) = false := by
  cases ps with
  | nil => decide
  | cons p ps =>
    cases p with
    | lit s =>
      simp only [piecesOkB, Bool.and_eq_true] at hok
      have hne : s ≠ [] := by
        have := hok.1.1
        simpa [List.isEmpty_iff] using this
      cases s with
      | nil => exact absurd rfl hne
      | cons a s =>
        simp only [headNotDigitB, List.headD_cons, Bool.not_eq_true'] at hh
        simpa [flattenPieces] using hh
    | ph k => simp [flattenPieces]

theorem remap_flatten (p : Nat) (ps : List Piece) (hok : piecesOkB ps = true) :
    remapChars (p + 1) (flattenPieces ps) = flattenPieces (ps.map (shiftPiece p)) := by
  induction ps with
  | nil => simp [flattenPieces, remapChars_nil]
  | cons q ps ih =>
    cases q with
    | lit s =>
      simp only [piecesOkB, Bool.and_eq_true] at hok
      have hnd : ∀ c ∈ s, c ≠ '$' := by
        intro c hc hEq
        subst hEq
        have h2 := hok.1.2
        simp only [List.contains, List.elem_eq_mem, Bool.not_eq_true',
          decide_eq_false_iff_not] at h2
        exact h2 hc
      simp only [flattenPieces, List.map_cons, shiftPiece]
      rw [remapChars_append_nodollar _ _ _ hnd, ih hok.2]
    | ph k =>
      simp only [piecesOkB, Bool.and_eq_true] at hok
      simp only [flattenPieces, List.map_cons, shiftPiece]
      rw [remapChars_marker _ _ _ (natDigits_all_digit k) (natDigits_ne_nil k)
        (flatten_headD_not_digit ps hok.2 hok.1), ih hok.2, digitsToNat_natDigits]
      simp

theorem phIndices_map_shift (p : Nat) (ps : List Piece) :
    phIndices (ps.map (shiftPiece p)) = (phIndices ps).map (p + ·) := by
  induction ps with
  | nil => rfl
  | cons q ps ih =>
    cases q with
    | lit s => simpa [shiftPiece, phIndices] using ih
    | ph k => simpa [shiftPiece, phIndices] using ih

/-- C1: a sub-query fragment whose text consists of literal runs and the
relative markers `$1..$k` in first-appearance order (`k` being its argument
count, the Fragment invariant), embedded into a parent whose render state
already holds `p = st.args.length` arguments (the parent cursor invariant
`st.pos = p + 1`), is written with its markers rewritten to the absolute
range `$(p+1)..$(p+k)`, its `k` arguments appended contiguously at offset
`p` of the parent argument list, and the parent cursor advanced by `k`. -/
theorem claim1_subquery_embedding (e : Expression) (ps : List Piece) (st : RenderState)
    (hsql : e.sql.data = flattenPieces ps)
    (hok : piecesOkB ps = true)
    (hidx : phIndices ps = List.range' 1 e.args.length)
    (hpos : st.pos = st.args.length + 1) :
    (e.writeRelativeArgs st).buf =
        st.buf ++ String.mk (flattenPieces (ps.map (shiftPiece st.args.length)))
      ∧ phIndices (ps.map (shiftPiece st.args.length)) =
        List.range' (st.args.length + 1) e.args.length
      ∧ (e.writeRelativeArgs st).args = st.args ++ e.args
      ∧ (e.writeRelativeArgs st).pos = st.pos + e.args.length := by
  refine ⟨?_, ?_, rfl, rfl⟩
  · show st.buf ++ remapPlaceholders e.sql st.pos = _
    rw [remapPlaceholders, hsql, hpos, remap_flatten st.args.length ps hok]
  · rw [phIndices_map_shift, hidx, List.map_add_range']

theorem claim1_subquery_embedding_witness :
    ((Expr "id = $1 AND x = $2" [Arg.int 9, Arg.int 7]).writeRelativeArgs
        ⟨"PRE ", [Arg.int 1, Arg.int 2, Arg.int 3], 4⟩).buf =
        "PRE " ++ String.mk (flattenPieces
          (([Piece.lit "id = ".data, Piece.ph 1, Piece.lit " AND x = ".data,
            Piece.ph 2]).map (shiftPiece 3)))
      ∧ phIndices (([Piece.lit "id = ".data, Piece.ph 1, Piece.lit " AND x = ".data,
            Piece.ph 2]).map (shiftPiece 3)) = List.range' 4 2
      ∧ ((Expr "id = $1 AND x = $2" [Arg.int 9, Arg.int 7]).writeRelativeArgs
          ⟨"PRE ", [Arg.int 1, Arg.int 2, Arg.int 3], 4⟩).args =
        [Arg.int 1, Arg.int 2, Arg.int 3] ++ [Arg.int 9, Arg.int 7]
      ∧ ((Expr "id = $1 AND x = $2" [Arg.int 9, Arg.int 7]).writeRelativeArgs
          ⟨"PRE ", [Arg.int 1, Arg.int 2, Arg.int 3], 4⟩).pos = 4 + 2 :=
  claim1_subquery_embedding
    (Expr "id = $1 AND x = $2" [Arg.int 9, Arg.int 7])
    [Piece.lit "id = ".data, Piece.ph 1, Piece.lit " AND x = ".data, Piece.ph 2]
    ⟨"PRE ", [Arg.int 1, Arg.int 2, Arg.int 3], 4⟩
    (by decide) (by decide) (by decide) (by decide)

theorem renderDocBody_isParent (eqo : EqOrder) (b : SelectDocBuilder) (st : RenderState) :
    renderDocBody eqo { b with isParent := false } st = renderDocBody eqo b st := rfl

/-- C2 counterexample: the claim "the top-level call still wraps exactly once
even when the same builder is also, elsewhere, embedded as a One()/Many()
argument of another builder" fails on the code.  Resolving a builder as a
One() argument permanently flips its `isParent` through the shared pointer;
a top-level `ToSQL` issued afterwards renders unwrapped. -/
theorem claim2_counterexample :
    (((NewSelectDocBuilder ["id"]).One "user"
        (.doc ((NewSelectDocBuilder ["a"]).From "t" [])) []).2 =
      .doc { ((NewSelectDocBuilder ["a"]).From "t" []) with isParent := false })
    ∧ ({ ((NewSelectDocBuilder ["a"]).From "t" []) with isParent := false }).isParent = false
    ∧ docToSQL { ((NewSelectDocBuilder ["a"]).From "t" []) with isParent := false } =
      .ok ("SELECT a FROM t ", [])
    ∧ ¬ ("SELECT a FROM t ").startsWith "SELECT row_to_json" := by
  refine ⟨by decide, rfl, rfl, by decide⟩

/-- C2 amended: with `isParent` true, `ToSQL` wraps the statement exactly
once — the output is the CTE list, then `SELECT row_to_json(dat__item.*)
FROM ( SELECT `, then the body that an unwrapped render would produce after
its own `SELECT `, then `) as dat__item` — and a document builder consumed
as a sub-query argument is resolved against its unwrapped rendering with its
`isParent` flipped false at the instant of resolution; the flip persists, so
a top-level call issued after the embedding renders unwrapped (see the
counterexample). -/
theorem docWithState_isParent (b : SelectDocBuilder) :
    docWithState { b with isParent := false } = docWithState b := rfl

theorem docBodyState_isParent (eqo : EqOrder) (b : SelectDocBuilder) :
    docBodyState eqo { b with isParent := false } = docBodyState eqo b := rfl

/-- C2 amended: with `isParent` true, `ToSQL` wraps the statement exactly
once — the output is the CTE list, then `SELECT row_to_json(dat__item.*)
FROM ( SELECT `, then the body an unwrapped render would produce after its
own `SELECT `, then `) as dat__item`, with identical arguments — and a
document builder consumed as a sub-query argument is resolved against its
unwrapped rendering with its `isParent` flipped false at the instant of
resolution; the flip persists on the shared builder, so a top-level call
issued after such an embedding renders unwrapped (see the counterexample). -/
theorem claim2_amended :
    (∀ (b : SelectDocBuilder) (s : String) (a : List Arg), b.isParent = true →
      docToSQL b = .ok (s, a) →
      ∃ w body, s = w ++ "SELECT row_to_json(dat__item.*) FROM ( SELECT " ++ body ++
          ") as dat__item" ∧
        docToSQL { b with isParent := false } = .ok (w ++ "SELECT " ++ body, a))
    ∧ (∀ (name col : String) (c : SelectDocBuilder) (a : List Arg) (s : String)
        (args : List Arg), docToSQL { c with isParent := false } = .ok (s, args) →
        storeExpr name col (.doc c) a =
          (none, some ⟨⟨s, args⟩, col⟩, .doc { c with isParent := false })) := by
  constructor
  · intro b s a hp hok
    have hb : b.err = none := by
      cases hbe : b.err with
      | some e => simp [docToSQL, docToSQLg, hbe] at hok
      | none => rfl
    have hcols : ¬ (b.sb.columns.length + b.subQueriesMany.length + b.subQueriesOne.length +
        b.subQueriesScalar.length + b.subQueriesVector.length = 0) := by
      intro h
      simp [docToSQL, docToSQLg, hb, h] at hok
    have hjoins : ¬ (b.sb.tableFragments = [] ∧ b.sb.joinFragments ≠ []) := by
      intro h
      simp [docToSQL, docToSQLg, hb, hcols, h] at hok
    have hmain : docToSQL b = .ok ((docWithState b).buf ++ docWrapPre b.isParent ++
        (docBodyState idOrder b).buf ++ docWrapSuf b.isParent,
        (docBodyState idOrder b).args) := by
      simp [docToSQL, docToSQLg, hb, hcols, hjoins]
    rw [hmain] at hok
    simp only [Except.ok.injEq, Prod.mk.injEq] at hok
    refine ⟨(docWithState b).buf, (docBodyState idOrder b).buf, ?_, ?_⟩
    · rw [← hok.1, hp]
      simp [docWrapPre, docWrapSuf]
    · have hmain2 : docToSQL { b with isParent := false } =
          .ok ((docWithState b).buf ++ "SELECT " ++ (docBodyState idOrder b).buf,
            (docBodyState idOrder b).args) := by
        simp only [docToSQL, docToSQLg, hb, hcols, hjoins, docWrapPre, docWrapSuf,
          if_neg hcols, if_neg hjoins]
        simp
        exact ⟨rfl, rfl⟩
      rw [hmain2, hok.2]
  · intro name col c a s args hok
    simp only [storeExpr, hok]

theorem claim2_amended_witness :
    ∃ w body,
      "SELECT row_to_json(dat__item.*) FROM ( SELECT a FROM t ) as dat__item" =
        w ++ "SELECT row_to_json(dat__item.*) FROM ( SELECT " ++ body ++ ") as dat__item"
      ∧ docToSQL { ((NewSelectDocBuilder ["a"]).From "t" []) with isParent := false } =
        .ok (w ++ "SELECT " ++ body, []) :=
  claim2_amended.1 ((NewSelectDocBuilder ["a"]).From "t" [])
    "SELECT row_to_json(dat__item.*) FROM ( SELECT a FROM t ) as dat__item" [] rfl rfl

/-- C3 counterexample: the claim "once an error is recorded, later calls
never overwrite it (the first recorded error wins); and ToSQL returns the
recorded error" fails on the code.  `SelectDocBuilder.Many` assigns the
latest `storeExpr` result to the error slot unconditionally: after a failed
`Many` (unsupported argument type) records an error, a later successful
`Many` resets the slot to nil and `ToSQL` succeeds. -/
theorem claim3_counterexample :
    ((((NewSelectDocBuilder ["a"]).From "t" []).Many "x" SqlOrBuilder.other []).1).err =
      some (storeExprErr "SelectDocBuilder.Many")
    ∧ (((((NewSelectDocBuilder ["a"]).From "t" []).Many "x" SqlOrBuilder.other []).1.Many
        "y" (.str "SELECT 1") []).1).err = none
    ∧ docToSQL (((((NewSelectDocBuilder ["a"]).From "t" []).Many "x"
        SqlOrBuilder.other []).1.Many "y" (.str "SELECT 1") []).1) =
      .ok ("SELECT row_to_json(dat__item.*) FROM ( SELECT a, (SELECT array_agg(dat__y.*) FROM (SELECT 1) AS dat__y) AS \"y\" FROM t ) as dat__item", []) :=
  ⟨rfl, rfl, rfl⟩

/-- C3 amended: a chaining call that detects an invalid combination records
an error on the builder, and every `ToSQL` returns the builder's own
recorded error before rendering any text; `InsertBuilder.Set` never
overwrites a recorded error and `SelectDocBuilder.With` is a no-op once one
is recorded; but `SelectBuilder.Columns` returns nil (not the builder) after
recording its error, and `SelectDocBuilder.Many` overwrites the recorded
error with the latest resolution result, so a later successful call clears
an earlier recorded error (see the counterexample). -/
theorem claim3_amended :
    (∀ (b : InsertBuilder) (c : String) (v : SetValue) (e : String),
      b.err = some e → (b.Set c v).err = some e)
    ∧ (∀ (b : InsertBuilder) (e : String), b.err = some e → insertToSQL b = .error e)
    ∧ (∀ (b : SelectBuilder) (e : String), b.err = some e → selectToSQL b = .error e)
    ∧ (∀ (b : SelectDocBuilder) (e : String), b.err = some e → docToSQL b = .error e)
    ∧ (∀ (b : SelectBuilder) (cols : List String),
        cols.length = 0 ∨ cols.headD "" = "" →
        b.Columns cols = ({ b with err := some selectColumnsErr }, none))
    ∧ (∀ (b : SelectDocBuilder) (col : String) (sob : SqlOrBuilder) (a : List Arg),
        ((b.Many col sob a).1).err = (storeExpr "SelectDocBuilder.Many" col sob a).1)
    ∧ (∀ (b : SelectDocBuilder) (col : String) (sob : SqlOrBuilder) (a : List Arg)
        (e : String), b.err = some e → b.With col sob a = (b, sob)) := by
  refine ⟨?_, ?_, ?_, ?_, ?_, ?_, ?_⟩
  · intro b c v e he
    simp only [InsertBuilder.Set]
    split
    · rw [if_neg (by simp [he])]
      exact he
    · exact he
  · intro b e he
    simp [insertToSQL, insertToSQLg, he]
  · intro b e he
    simp [selectToSQL, selectToSQLg, he]
  · intro b e he
    simp [docToSQL, docToSQLg, he]
  · intro b cols h
    rw [SelectBuilder.Columns, if_pos h]
  · intro b col sob a
    rfl
  · intro b col sob a e he
    simp [SelectDocBuilder.With, he]

theorem claim3_amended_witness :
    (({ table := "t", err := some "boom" } : InsertBuilder).Set "c"
        (SetValue.arg (Arg.int 1))).err = some "boom"
    ∧ insertToSQL { table := "t", err := some "boom" } = .error "boom"
    ∧ selectToSQL { err := some "boom" } = .error "boom"
    ∧ docToSQL { sb := {}, err := some "boom" } = .error "boom"
    ∧ SelectBuilder.Columns {} [] = ({ err := some selectColumnsErr }, none)
    ∧ (({ sb := {}, err := some "boom" } : SelectDocBuilder).With "w"
        (.str "SELECT 1") []) = ({ sb := {}, err := some "boom" }, .str "SELECT 1") :=
  ⟨claim3_amended.1 _ "c" _ "boom" rfl, claim3_amended.2.1 _ "boom" rfl,
    claim3_amended.2.2.1 _ "boom" rfl, claim3_amended.2.2.2.1 _ "boom" rfl,
    claim3_amended.2.2.2.2.1 _ [] (Or.inl rfl),
    claim3_amended.2.2.2.2.2.2 _ "w" _ [] "boom" rfl⟩

/-- C4 counterexample: the claim that a slice of length 0 "including nil
slices" compiles to `1=0` fails on the code.  A nil slice compiles to
`col IS NULL` (as the in-source test `TestSelectWhereMapSql` asserts), not
to `1=0`. -/
theorem claim4_counterexample :
    selectToSQL (((NewSelectBuilder ["a"]).From "b" []).Where (.eqMap [("a", .nilSlice)])) =
      .ok ("SELECT a FROM b WHERE (a IS NULL)", [])
    ∧ "SELECT a FROM b WHERE (a IS NULL)" ≠ "SELECT a FROM b WHERE (1=0)" :=
  ⟨rfl, by decide⟩

/-- C4 amended: for a map-valued WHERE entry whose value is a slice,
independent of the surrounding render state and of any other registered
predicate: a slice of length at least 2 compiles to `col IN $n` bound as one
array argument; a slice of exactly one element compiles to `col = $n`
against the sole element; a non-nil slice of length 0 compiles to the
constant fragment `(1=0)` contributing zero bound arguments; and a nil
slice compiles to `col IS NULL` contributing zero bound arguments. -/
theorem claim4_amended :
    (∀ (col : String) (xs : List ArgV) (st : RenderState) (any : Bool),
      2 ≤ xs.length →
      renderEqEntry col (.slice xs) st any =
        (⟨st.buf ++ andSep any ++ "(" ++ col ++ " IN $" ++ natToStr st.pos ++ ")",
          st.args ++ [Arg.arr xs], st.pos + 1⟩, true))
    ∧ (∀ (col : String) (x : ArgV) (st : RenderState) (any : Bool),
      renderEqEntry col (.slice [x]) st any =
        (⟨st.buf ++ andSep any ++ "(" ++ col ++ " = $" ++ natToStr st.pos ++ ")",
          st.args ++ [Arg.v x], st.pos + 1⟩, true))
    ∧ (∀ (col : String) (st : RenderState) (any : Bool),
      renderEqEntry col (.slice []) st any =
        (⟨st.buf ++ andSep any ++ "(1=0)", st.args, st.pos⟩, true))
    ∧ (∀ (col : String) (st : RenderState) (any : Bool),
      renderEqEntry col .nilSlice st any =
        (⟨st.buf ++ andSep any ++ "(" ++ col ++ " IS NULL)", st.args, st.pos⟩, true)) := by
  refine ⟨?_, ?_, ?_, ?_⟩
  · intro col xs st any hlen
    match xs with
    | [] => simp at hlen
    | [x] => simp at hlen
    | x :: y :: rest => rfl
  · intro col x st any
    rfl
  · intro col st any
    simp [renderEqEntry, appendText, String.append_assoc]
  · intro col st any
    simp [renderEqEntry, appendText, String.append_assoc]

theorem claim4_amended_witness :
    renderEqEntry "a" (.slice [.int 1, .int 2, .int 3]) ⟨"W ", [Arg.int 9], 2⟩ true =
      (⟨"W " ++ andSep true ++ "(" ++ "a" ++ " IN $" ++ natToStr 2 ++ ")",
        [Arg.int 9] ++ [Arg.arr [.int 1, .int 2, .int 3]], 3⟩, true) :=
  claim4_amended.1 "a" [.int 1, .int 2, .int 3] ⟨"W ", [Arg.int 9], 2⟩ true (by decide)

/-- C5: `Whitelist` with an empty argument list or one containing the
literal `"*"` is a no-op; WITH and UNION bindings are never affected; in an
effective call every MANY/ONE/VECTOR/SCALAR slot is pruned to `none` exactly
when its alias is neither an exact match of a plain allow-list entry nor a
prefix match of a trailing-`*` entry, matching slots being kept unchanged;
and the render loops skip pruned slots. -/
theorem claim5_whitelist (b : SelectDocBuilder) (cols : List String) :
    (cols = [] → b.Whitelist cols = b)
    ∧ ("*" ∈ cols → b.Whitelist cols = b)
    ∧ (b.Whitelist cols).subQueriesWith = b.subQueriesWith
    ∧ (b.Whitelist cols).union = b.union
    ∧ (cols ≠ [] → "*" ∉ cols →
        (b.Whitelist cols).subQueriesMany =
          b.subQueriesMany.map (pruneEntry (whitelistMatchCols cols) (whitelistEqCols cols))
        ∧ (b.Whitelist cols).subQueriesOne =
          b.subQueriesOne.map (pruneEntry (whitelistMatchCols cols) (whitelistEqCols cols))
        ∧ (b.Whitelist cols).subQueriesVector =
          b.subQueriesVector.map (pruneEntry (whitelistMatchCols cols) (whitelistEqCols cols))
        ∧ (b.Whitelist cols).subQueriesScalar =
          b.subQueriesScalar.map (pruneEntry (whitelistMatchCols cols) (whitelistEqCols cols)))
    ∧ (∀ (mc ec : List String) (si : SubInfo),
        pruneEntry mc ec (some si) =
          if (mc.any (fun c => c.length ≤ si.aliasName.length &&
                si.aliasName.take c.length == c) ||
              ec.any (fun c => si.aliasName == c) : Bool) then
            some si
          else none)
    ∧ (∀ (f : SubInfo → RenderState → RenderState) (l : List (Option SubInfo))
        (st : RenderState), renderSubList f (none :: l) st = renderSubList f l st) := by
  refine ⟨?_, ?_, ?_, ?_, ?_, ?_, ?_⟩
  · intro h
    simp [SelectDocBuilder.Whitelist, h]
  · intro h
    have hne : ¬ cols = [] := by rintro rfl; simp at h
    have hany : cols.any (fun c => c = "*") = true := by
      simp only [List.any_eq_true, decide_eq_true_eq]
      exact ⟨"*", h, rfl⟩
    rw [SelectDocBuilder.Whitelist, if_neg hne, if_pos hany]
  · rw [SelectDocBuilder.Whitelist]
    split
    · rfl
    · split
      · rfl
      · rfl
  · rw [SelectDocBuilder.Whitelist]
    split
    · rfl
    · split
      · rfl
      · rfl
  · intro h1 h2
    have hany : ¬ (cols.any (fun c => c = "*") = true) := by
      simp only [List.any_eq_true, decide_eq_true_eq]
      rintro ⟨c, hc, rfl⟩
      exact h2 hc
    rw [SelectDocBuilder.Whitelist, if_neg h1, if_neg hany]
    exact ⟨rfl, rfl, rfl, rfl⟩
  · intro mc ec si
    rfl
  · intro f l st
    rfl

theorem claim5_whitelist_witness :
    (({ sb := { columns := ["b"] },
        subQueriesMany := [some ⟨⟨"SELECT g", []⟩, "f"⟩, some ⟨⟨"SELECT id", []⟩, "x2"⟩],
        subQueriesOne := [some ⟨⟨"SELECT id", []⟩, "foo"⟩],
        subQueriesVector := [some ⟨⟨"SELECT id", []⟩, "y"⟩],
        subQueriesScalar := [some ⟨⟨"SELECT id", []⟩, "x"⟩] } :
          SelectDocBuilder).Whitelist ["f*", "x"]).subQueriesMany =
      ([some ⟨⟨"SELECT g", []⟩, "f"⟩, some ⟨⟨"SELECT id", []⟩, "x2"⟩] :
        List (Option SubInfo)).map
        (pruneEntry (whitelistMatchCols ["f*", "x"]) (whitelistEqCols ["f*", "x"])) :=
  ((claim5_whitelist
    { sb := { columns := ["b"] },
      subQueriesMany := [some ⟨⟨"SELECT g", []⟩, "f"⟩, some ⟨⟨"SELECT id", []⟩, "x2"⟩],
      subQueriesOne := [some ⟨⟨"SELECT id", []⟩, "foo"⟩],
      subQueriesVector := [some ⟨⟨"SELECT id", []⟩, "y"⟩],
      subQueriesScalar := [some ⟨⟨"SELECT id", []⟩, "x"⟩] }
    ["f*", "x"]).2.2.2.2.1 (by decide) (by decide)).1

/-- C10: for a document builder with no recorded error, `ToSQL` returns the
"no columns specified" validation error exactly when the projected-column
list and all four prunable binding lists are empty — a document consisting
solely of sub-query bindings is valid — whereas the plain select builder
errors whenever its column list is empty. -/
theorem claim10_no_columns (bd : SelectDocBuilder) (bs : SelectBuilder)
    (hd : bd.err = none) (hs : bs.err = none) :
    (docToSQL bd = .error "no columns specified" ↔
      bd.sb.columns = [] ∧ bd.subQueriesMany = [] ∧ bd.subQueriesOne = [] ∧
        bd.subQueriesVector = [] ∧ bd.subQueriesScalar = [])
    ∧ (bs.columns = [] → selectToSQL bs = .error "no columns specified") := by
  constructor
  · constructor
    · intro h
      by_cases hc : bd.sb.columns.length + bd.subQueriesMany.length +
          bd.subQueriesOne.length + bd.subQueriesScalar.length +
          bd.subQueriesVector.length = 0
      · refine ⟨?_, ?_, ?_, ?_, ?_⟩ <;> (apply List.eq_nil_of_length_eq_zero; omega)
      · exfalso
        by_cases hj : bd.sb.tableFragments = [] ∧ bd.sb.joinFragments ≠ []
        · simp only [docToSQL, docToSQLg, hd, if_neg hc, if_pos hj] at h
          simp at h
        · simp only [docToSQL, docToSQLg, hd, if_neg hc, if_neg hj] at h
          simp at h
    · rintro ⟨h1, h2, h3, h4, h5⟩
      simp [docToSQL, docToSQLg, hd, h1, h2, h3, h4, h5]
  · intro h
    simp [selectToSQL, selectToSQLg, hs, h]

theorem claim10_no_columns_witness :
    docToSQL { sb := {}, subQueriesScalar := [some ⟨⟨"SELECT id", []⟩, "z"⟩] } ≠
      .error "no columns specified"
    ∧ selectToSQL {} = .error "no columns specified" := by
  have h := claim10_no_columns
    { sb := {}, subQueriesScalar := [some ⟨⟨"SELECT id", []⟩, "z"⟩] } {} rfl rfl
  refine ⟨fun hc => ?_, h.2 rfl⟩
  have h5 := (h.1.mp hc).2.2.2.2
  exact absurd h5 (by decide)

theorem string_length_eq_zero_iff (s : String) : s.length = 0 ↔ s = "" := by
  cases s with
  | mk data =>
    cases data with
    | nil => simp
    | cons c cs =>
      simp only [String.length_mk, List.length_cons]
      constructor
      · omega
      · intro h
        have hd := congrArg String.data h
        simp at hd

/-- C6: in a successful `ToSQL`, the ON CONFLICT clause is rendered (as a
nonempty segment between the row groups and the RETURNING clause) exactly
when precisely one of the conflict target's column/constraint is set (never
both, never neither); when rendered, the target appears as `(column)`
optionally followed by ` WHERE indexPredicate`, or as `ON CONSTRAINT name`,
and if no `Set`/`SetMap` call switched the action to UPDATE it renders as
`DO NOTHING`. -/
theorem claim6_on_conflict (eqo : EqOrder) (b : InsertBuilder) (start : Nat) :
    ((onConflictClause eqo b start).1 = "" ↔
      hasOneConflictTarget b.onConflictTarget = false)
    ∧ (hasOneConflictTarget b.onConflictTarget = true ↔
        ((b.onConflictTarget.column ≠ "" ∧ b.onConflictTarget.constraint = "") ∨
          (b.onConflictTarget.column = "" ∧ b.onConflictTarget.constraint ≠ "")))
    ∧ (b.onConflictTarget.column ≠ "" →
        conflictTargetText b.onConflictTarget =
          "(" ++ b.onConflictTarget.column ++ ")" ++
            (if b.onConflictTarget.indexPredicate ≠ "" then
              " WHERE " ++ b.onConflictTarget.indexPredicate
            else ""))
    ∧ (b.onConflictTarget.column = "" → b.onConflictTarget.constraint ≠ "" →
        conflictTargetText b.onConflictTarget =
          "ON CONSTRAINT " ++ b.onConflictTarget.constraint)
    ∧ (hasOneConflictTarget b.onConflictTarget = true →
        b.onConflictAction.action ≠ updateAction →
        (onConflictClause eqo b start).1 =
          " ON CONFLICT " ++ conflictTargetText b.onConflictTarget ++ " DO NOTHING")
    ∧ (∀ s args, insertToSQLg eqo b = .ok (s, args) →
        ∃ pre pos, s = pre ++ (onConflictClause eqo b pos).1 ++
          returningText b.returnings) := by
  refine ⟨?_, ?_, ?_, ?_, ?_, ?_⟩
  · constructor
    · intro he
      by_contra hne
      have h : hasOneConflictTarget b.onConflictTarget = true := by
        cases hx : hasOneConflictTarget b.onConflictTarget
        · exact absurd hx hne
        · rfl
      rw [onConflictClause, if_pos h] at he
      have h13 : (" ON CONFLICT " : String).length = 13 := rfl
      by_cases ha : b.onConflictAction.action ≠ updateAction
      · rw [if_pos ha] at he
        have hl := congrArg String.length he
        simp only [String.length_append, String.length_empty, h13] at hl
        omega
      · rw [if_neg ha] at he
        have hl := congrArg String.length he
        simp only [String.length_append, String.length_empty, h13] at hl
        omega
    · intro h
      rw [onConflictClause, if_neg (by simp [h])]
  · simp only [hasOneConflictTarget, Bool.or_eq_true, Bool.and_eq_true, Bool.not_eq_true',
      decide_eq_true_eq, decide_eq_false_iff_not, ne_eq, not_not, string_length_eq_zero_iff]
  · intro h
    have hlen : b.onConflictTarget.column.length ≠ 0 :=
      fun hz => h ((string_length_eq_zero_iff _).mp hz)
    rw [conflictTargetText, if_pos (Nat.pos_of_ne_zero hlen)]
    congr 1
    by_cases hp : b.onConflictTarget.indexPredicate = ""
    · rw [if_neg (by rw [hp]; simp), if_neg (by simp [hp])]
    · have hplen : b.onConflictTarget.indexPredicate.length ≠ 0 :=
        fun hz => hp ((string_length_eq_zero_iff _).mp hz)
      rw [if_pos (Nat.pos_of_ne_zero hplen), if_pos hp]
  · intro h1 h2
    have hlen : b.onConflictTarget.constraint.length ≠ 0 :=
      fun hz => h2 ((string_length_eq_zero_iff _).mp hz)
    rw [conflictTargetText, if_neg (by rw [h1]; simp),
      if_pos (Nat.pos_of_ne_zero hlen)]
  · intro h1 h2
    rw [onConflictClause, if_pos h1, if_pos h2]
  · intro s args hok
    rw [insertToSQLg] at hok
    cases hb : b.err with
    | some e => rw [hb] at hok; cases hok
    | none =>
      rw [hb] at hok
      simp only at hok
      split at hok
      · cases hok
      · split at hok
        · cases hok
        · split at hok
          · cases hok
          · split at hok
            · cases hok
            · split at hok
              · cases hok
              · split at hok
                · cases hok
                · rename_i rr heq
                  simp only [Except.ok.injEq, Prod.mk.injEq] at hok
                  exact ⟨"INSERT INTO " ++ b.table ++ " (" ++
                    String.intercalate "," ((resolveInsertCols b).map writeIdentifier) ++
                    ") VALUES " ++ (valuesRows b.vals 1).1 ++ rr.1, rr.2.2,
                    hok.1.symm⟩

theorem claim6_on_conflict_witness :
    (onConflictClause idOrder
        { table := "a", cols := ["b", "c"], vals := [[Arg.int 1, Arg.int 2]], onConflictTarget := { column := "b" } } 3).1 =
      " ON CONFLICT " ++
        conflictTargetText
          ({ table := "a", cols := ["b", "c"], vals := [[Arg.int 1, Arg.int 2]], onConflictTarget := { column := "b" } } : InsertBuilder).onConflictTarget ++
        " DO NOTHING"
    ∧ ∃ pre pos,
        "INSERT INTO a (b,c) VALUES ($1,$2) ON CONFLICT (b) DO NOTHING" =
          pre ++ (onConflictClause idOrder
            { table := "a", cols := ["b", "c"], vals := [[Arg.int 1, Arg.int 2]], onConflictTarget := { column := "b" } } pos).1 ++ returningText [] :=
  ⟨(claim6_on_conflict idOrder
      { table := "a", cols := ["b", "c"], vals := [[Arg.int 1, Arg.int 2]], onConflictTarget := { column := "b" } } 3).2.2.2.2.1 (by decide) (by decide),
    (claim6_on_conflict idOrder
      { table := "a", cols := ["b", "c"], vals := [[Arg.int 1, Arg.int 2]], onConflictTarget := { column := "b" } } 3).2.2.2.2.2
      "INSERT INTO a (b,c) VALUES ($1,$2) ON CONFLICT (b) DO NOTHING"
      [Arg.int 1, Arg.int 2] rfl⟩

theorem sepJoin_cons_ne (sep a : String) (l : List String) (h : l ≠ []) :
    sepJoin sep (a :: l) = a ++ sep ++ sepJoin sep l := by
  cases l with
  | nil => exact absurd rfl h
  | cons b bs => rfl

theorem rowGroups_ne_nil (W start n : Nat) : rowGroups W start (n + 1) ≠ [] := by
  simp [rowGroups]

theorem valuesRows_args (rows : List (List Arg)) (start : Nat) :
    (valuesRows rows start).2.1 = rows.flatten := by
  induction rows generalizing start with
  | nil => rfl
  | cons row rest ih =>
    cases rest with
    | nil => simp [valuesRows]
    | cons r2 rest2 =>
      simp only [valuesRows, List.flatten_cons]
      rw [ih]
      simp

theorem valuesRows_uniform (W : Nat) (rows : List (List Arg)) (start : Nat)
    (hw : ∀ r ∈ rows, r.length = W) :
    valuesRows rows start =
      (sepJoin "," (rowGroups W start rows.length), rows.flatten,
        start + rows.length * W) := by
  induction rows generalizing start with
  | nil => simp [valuesRows, rowGroups, sepJoin]
  | cons row rest ih =>
    have hrow : row.length = W := hw row (by simp)
    have hrest : ∀ r ∈ rest, r.length = W := fun r hr => hw r (by simp [hr])
    cases rest with
    | nil =>
      simp only [valuesRows, List.length_cons, List.length_nil, rowGroups, sepJoin,
        List.flatten_cons, List.flatten_nil, List.append_nil, hrow]
      refine Prod.ext rfl (Prod.ext rfl ?_)
      simp
    | cons r2 rest2 =>
      simp only [valuesRows, List.length_cons, List.flatten_cons]
      rw [ih (start + row.length) hrest, hrow]
      refine Prod.ext ?_ (Prod.ext rfl ?_)
      · simp only [rowGroups, List.length_cons]
        rfl
      · simp only [List.length_cons]
        ring

theorem range_blocks (W N start : Nat) :
    ((List.range N).map (fun i => List.range' (start + i * W) W)).flatten =
      List.range' start (N * W) := by
  induction N generalizing start with
  | zero => simp
  | succ N ih =>
    rw [List.range_succ]
    simp only [List.map_append, List.map_cons, List.map_nil, List.flatten_append,
      List.flatten_cons, List.flatten_nil, List.append_nil, ih]
    have h := List.range'_append start (N * W) W 1
    simp only [one_mul] at h
    rw [h]
    congr 1
    ring

theorem valuesFor_length (rec : Rec) (cols : List String) (vs : List Arg)
    (h : valuesFor rec cols = .ok vs) : vs.length = cols.length := by
  induction cols generalizing vs with
  | nil => cases h; rfl
  | cons c cols ih =>
    rw [valuesFor] at h
    cases hl : rec.lookup c with
    | none => rw [hl] at h; cases h
    | some a =>
      rw [hl] at h
      cases hr : valuesFor rec cols with
      | error e => rw [hr] at h; cases h
      | ok vs2 =>
        rw [hr] at h
        cases h
        simp [ih vs2 hr]

theorem recordsRows_of_vals (cols : List String) (recs : List Rec)
    (rvs : List (List Arg)) (hv : recordsVals cols recs = .ok rvs) :
    (∀ v ∈ rvs, v.length = cols.length)
    ∧ ∀ (start : Nat) (anyPrev : Bool),
      recordsRows recs cols start anyPrev =
        .ok ((if anyPrev ∧ recs ≠ [] then "," else "") ++
            sepJoin "," (rowGroups cols.length start recs.length),
          rvs.flatten, start + recs.length * cols.length) := by
  induction recs generalizing rvs with
  | nil =>
    cases hv
    refine ⟨by simp, fun start anyPrev => ?_⟩
    simp [recordsRows, rowGroups, sepJoin]
  | cons rec recs ih =>
    rw [recordsVals] at hv
    cases hf : valuesFor rec cols with
    | error e => rw [hf] at hv; cases hv
    | ok vs =>
      rw [hf] at hv
      cases hr : recordsVals cols recs with
      | error e => rw [hr] at hv; cases hv
      | ok rvs2 =>
        rw [hr] at hv
        cases hv
        have hlen := valuesFor_length rec cols vs hf
        obtain ⟨ih1, ih2⟩ := ih rvs2 hr
        refine ⟨?_, ?_⟩
        · intro v hvm
          rcases List.mem_cons.mp hvm with rfl | hm
          · exact hlen
          · exact ih1 v hm
        · intro start anyPrev
          simp only [recordsRows, hf]
          rw [ih2 (start + vs.length) true, hlen]
          simp only [List.flatten_cons, List.length_cons, rowGroups]
          cases recs with
          | nil => simp [rowGroups, sepJoin]
          | cons rec2 recs2 =>
            simp only [rowGroups, List.length_cons, ne_eq, reduceCtorEq, not_false_iff,
              and_true, List.flatten_cons]
            refine congrArg Except.ok (Prod.ext ?_ (Prod.ext rfl ?_))
            · cases anyPrev <;> simp [sepJoin, String.append_assoc]
            · ring

theorem flatten_length_uniform (W : Nat) (rows : List (List Arg))
    (hw : ∀ r ∈ rows, r.length = W) : rows.flatten.length = rows.length * W := by
  induction rows with
  | nil => simp
  | cons r rest ih =>
    simp only [List.flatten_cons, List.length_append, List.length_cons]
    rw [hw r (by simp), ih (fun x hx => hw x (by simp [hx]))]
    ring

/-- C7: with N literal rows all of width W, the VALUES section is one
parenthesized group per row with sequentially numbered placeholders covering
exactly `$1..$(N*W)` (the flattened group ranges equal `range' 1 (N*W)`),
and the bound arguments are the rows flattened in row-major order, `N*W` of
them; when records are also present and resolve against the resolved column
list, the final argument list is the literal rows first, then the record
rows in registration order (then any upsert arguments), each record row's
width equal to the resolved column count, and the rendered text continues
the numbering with one group per record. -/
theorem claim7_insert_rows (eqo : EqOrder) (b : InsertBuilder) (W : Nat)
    (hw : ∀ r ∈ b.vals, r.length = W) :
    valuesRows b.vals 1 =
      (sepJoin "," (rowGroups W 1 b.vals.length), b.vals.flatten, 1 + b.vals.length * W)
    ∧ b.vals.flatten.length = b.vals.length * W
    ∧ ((List.range b.vals.length).map (fun i => List.range' (1 + i * W) W)).flatten =
      List.range' 1 (b.vals.length * W)
    ∧ ∀ rvs, recordsVals (resolveInsertCols b) b.records = .ok rvs →
        (∀ v ∈ rvs, v.length = (resolveInsertCols b).length)
        ∧ ∀ s args, insertToSQLg eqo b = .ok (s, args) →
            args = b.vals.flatten ++ rvs.flatten ++
              (onConflictClause eqo b (1 + b.vals.length * W +
                b.records.length * (resolveInsertCols b).length)).2
            ∧ s = "INSERT INTO " ++ b.table ++ " (" ++
                String.intercalate "," ((resolveInsertCols b).map writeIdentifier) ++
                ") VALUES " ++ sepJoin "," (rowGroups W 1 b.vals.length) ++
                ((if b.vals.length > 0 ∧ b.records ≠ [] then "," else "") ++
                  sepJoin "," (rowGroups (resolveInsertCols b).length
                    (1 + b.vals.length * W) b.records.length)) ++
                (onConflictClause eqo b (1 + b.vals.length * W +
                  b.records.length * (resolveInsertCols b).length)).1 ++
                returningText b.returnings := by
  have hvr := valuesRows_uniform W b.vals 1 hw
  refine ⟨hvr, flatten_length_uniform W b.vals hw,
    range_blocks W b.vals.length 1, ?_⟩
  intro rvs hrvs
  obtain ⟨hlen, hrr⟩ := recordsRows_of_vals (resolveInsertCols b) b.records rvs hrvs
  refine ⟨hlen, ?_⟩
  intro s args hok
  rw [insertToSQLg] at hok
  cases hb : b.err with
  | some e => rw [hb] at hok; cases hok
  | none =>
    rw [hb] at hok
    simp only at hok
    split at hok
    · cases hok
    · split at hok
      · cases hok
      · split at hok
        · cases hok
        · split at hok
          · cases hok
          · split at hok
            · cases hok
            · rw [hvr, hrr (1 + b.vals.length * W) (b.vals.length > 0)] at hok
              simp only [Except.ok.injEq, Prod.mk.injEq] at hok
              obtain ⟨hs, ha⟩ := hok
              refine ⟨ha.symm.trans ?_, hs.symm.trans ?_⟩
              · rfl
              · by_cases hcond : b.vals.length > 0 ∧ b.records ≠ []
                · rw [if_pos hcond, if_pos ⟨decide_eq_true_eq.mpr hcond.1, hcond.2⟩]
                · rw [if_neg hcond,
                    if_neg (fun hc => hcond ⟨of_decide_eq_true hc.1, hc.2⟩)]

theorem claim7_insert_rows_witness :
    [Arg.int 1, Arg.int 2, Arg.int 3, Arg.int 4, Arg.int 5, Arg.int 6] =
      ([[Arg.int 1, Arg.int 2], [Arg.int 3, Arg.int 4]] : List (List Arg)).flatten ++
        ([[Arg.int 5, Arg.int 6]] : List (List Arg)).flatten ++
        (onConflictClause idOrder { table := "a", cols := ["b", "c"], vals := [[Arg.int 1, Arg.int 2], [Arg.int 3, Arg.int 4]], records := [[("b", Arg.int 5), ("c", Arg.int 6)]] } (1 + 2 * 2 + 1 * 2)).2
    ∧ "INSERT INTO a (b,c) VALUES ($1,$2),($3,$4),($5,$6)" =
      "INSERT INTO a" ++ " (" ++ "b,c" ++ ") VALUES " ++ "($1,$2),($3,$4)" ++
        ("," ++ "($5,$6)") ++ "" ++ "" := by
  have h := ((claim7_insert_rows idOrder
    { table := "a", cols := ["b", "c"], vals := [[Arg.int 1, Arg.int 2], [Arg.int 3, Arg.int 4]], records := [[("b", Arg.int 5), ("c", Arg.int 6)]] }
    2 (by decide)).2.2.2 [[Arg.int 5, Arg.int 6]] rfl).2
    "INSERT INTO a (b,c) VALUES ($1,$2),($3,$4),($5,$6)"
    [Arg.int 1, Arg.int 2, Arg.int 3, Arg.int 4, Arg.int 5, Arg.int 6] rfl
  exact ⟨h.1, by decide⟩

/-- C8: each DO UPDATE SET pair renders as `column = ...`: a string value
exactly equal to `EXCLUDED.` followed by the pair's column renders raw,
unquoted and unparameterized, contributing no bound argument and leaving the
cursor unchanged; a prebuilt expression value is remapped onto the running
absolute cursor with its arguments appended and the cursor advanced by their
count; any other value binds one fresh absolute placeholder with the value
appended; and the pair list renders comma-joined with the cursor threaded
left to right. -/
theorem claim8_do_update_set :
    (∀ (c : SetClause) (e : Expression) (pos : Nat), c.value = .expr e →
      renderSetClause1 c pos =
        (writeIdentifier c.column ++ " = " ++ remapPlaceholders e.sql pos, e.args,
          pos + e.args.length))
    ∧ (∀ (c : SetClause) (s : String) (pos : Nat), c.value = .str s →
        s = excludedColumn ++ "." ++ c.column →
        renderSetClause1 c pos = (writeIdentifier c.column ++ " = " ++ s, [], pos))
    ∧ (∀ (c : SetClause) (s : String) (pos : Nat), c.value = .str s →
        s ≠ excludedColumn ++ "." ++ c.column →
        renderSetClause1 c pos =
          (writeIdentifier c.column ++ " = $" ++ natToStr pos, [Arg.str s], pos + 1))
    ∧ (∀ (c : SetClause) (a : Arg) (pos : Nat), c.value = .arg a →
        renderSetClause1 c pos =
          (writeIdentifier c.column ++ " = $" ++ natToStr pos, [a], pos + 1))
    ∧ (∀ (c : SetClause) (rest : List SetClause) (pos : Nat), rest ≠ [] →
        renderSetClauses (c :: rest) pos =
          ((renderSetClause1 c pos).1 ++ ", " ++
              (renderSetClauses rest (renderSetClause1 c pos).2.2).1,
            (renderSetClause1 c pos).2.1 ++
              (renderSetClauses rest (renderSetClause1 c pos).2.2).2.1,
            (renderSetClauses rest (renderSetClause1 c pos).2.2).2.2)) := by
  refine ⟨?_, ?_, ?_, ?_, ?_⟩
  · intro c e pos hv
    rw [renderSetClause1, hv]
  · intro c s pos hv hs
    rw [renderSetClause1, hv]
    simp only [if_pos hs]
  · intro c s pos hv hs
    rw [renderSetClause1, hv]
    simp only [if_neg hs]
  · intro c a pos hv
    rw [renderSetClause1, hv]
  · intro c rest pos hrest
    cases rest with
    | nil => exact absurd rfl hrest
    | cons c2 rest2 => rfl

theorem claim8_do_update_set_witness :
    renderSetClause1 ⟨"b", .str "EXCLUDED.b"⟩ 3 =
      (writeIdentifier "b" ++ " = " ++ "EXCLUDED.b", [], 3)
    ∧ renderSetClause1 ⟨"c", .arg (Arg.int 50)⟩ 3 =
      (writeIdentifier "c" ++ " = $" ++ natToStr 3, [Arg.int 50], 4) :=
  ⟨claim8_do_update_set.2.1 ⟨"b", .str "EXCLUDED.b"⟩ "EXCLUDED.b" 3 rfl rfl,
    claim8_do_update_set.2.2.2.1 ⟨"c", .arg (Arg.int 50)⟩ (Arg.int 50) 3 rfl⟩

theorem perm_len_le_one_eq {α : Type} {l m : List α} (hp : l.Perm m) (hm : m.length ≤ 1) :
    l = m := by
  cases m with
  | nil => exact hp.eq_nil
  | cons a t =>
    cases t with
    | nil => exact List.perm_singleton.mp hp
    | cons c t2 => simp at hm

theorem foldl_andFragStep_congr (eqo₁ eqo₂ : EqOrder) :
    ∀ (frags : List WhereFragment),
      (∀ f ∈ frags, ∀ m, f.equalityMap = some m → eqo₁ m = eqo₂ m) →
      ∀ p : RenderState × Bool,
        frags.foldl (andFragStep eqo₁) p = frags.foldl (andFragStep eqo₂) p := by
  intro frags
  induction frags with
  | nil => intro _ _; rfl
  | cons f fs ih =>
    intro h p
    have hstep : andFragStep eqo₁ p f = andFragStep eqo₂ p f := by
      unfold andFragStep
      by_cases hc : f.condition ≠ ""
      · rw [if_pos hc, if_pos hc]
      · rw [if_neg hc, if_neg hc]
        cases hm : f.equalityMap with
        | none => rfl
        | some m =>
          exact congrArg (fun l => writeEqualityMap l p.1 p.2)
            (h f (List.mem_cons_self f fs) m hm)
    simp only [List.foldl_cons, hstep]
    exact ih (fun g hg m hm => h g (List.mem_cons_of_mem f hg) m hm) _

theorem writeAndFragments_congr (eqo₁ eqo₂ : EqOrder) (frags : List WhereFragment)
    (h : ∀ f ∈ frags, ∀ m, f.equalityMap = some m → eqo₁ m = eqo₂ m) :
    writeAndFragments eqo₁ frags = writeAndFragments eqo₂ frags := by
  funext st
  unfold writeAndFragments
  rw [foldl_andFragStep_congr eqo₁ eqo₂ frags h]

/-- C9 counterexample: the claim "calling ToSQL twice with no intervening
mutation yields identical (sqlText, boundArguments, error) both times" fails
on the code when a registered equality map holds two or more entries: the
render iterates the Go map with `range`, whose order is unspecified and may
differ between the two calls.  Reversal is a legitimate iteration order (a
permutation of the entries), and on a two-entry map it renders different SQL
text and a different argument order than insertion order does. -/
theorem claim9_counterexample :
    ((fun (m : EqMap) => m.reverse) [("a", MapVal.val (Arg.int 1)), ("b", MapVal.val (Arg.int 2))]).Perm [("a", MapVal.val (Arg.int 1)), ("b", MapVal.val (Arg.int 2))]
    ∧ selectToSQLg idOrder { columns := ["a"], tableFragments := [⟨"b", [], none⟩], whereFragments := [⟨"", [], some [("a", MapVal.val (Arg.int 1)), ("b", MapVal.val (Arg.int 2))]⟩] } = .ok ("SELECT a FROM b WHERE (a = $1) AND (b = $2)", [Arg.int 1, Arg.int 2])
    ∧ selectToSQLg (fun m => m.reverse) { columns := ["a"], tableFragments := [⟨"b", [], none⟩], whereFragments := [⟨"", [], some [("a", MapVal.val (Arg.int 1)), ("b", MapVal.val (Arg.int 2))]⟩] } = .ok ("SELECT a FROM b WHERE (b = $1) AND (a = $2)", [Arg.int 2, Arg.int 1])
    ∧ ("SELECT a FROM b WHERE (a = $1) AND (b = $2)" : String) ≠ "SELECT a FROM b WHERE (b = $1) AND (a = $2)" :=
  ⟨List.reverse_perm _, rfl, rfl, by decide⟩

/-- C9 amended: the render functions are pure — they read the builder and
never write it, so repeatability can only fail through the map-iteration
order, which Go leaves unspecified; and it does fail there (see the
counterexample).  What holds: for any two iteration orders that permute the
entries, a select, document or insert builder all of whose registered
equality maps hold at most one entry renders identically under both —
in particular, with no equality map of two or more entries, ToSQL is
repeatable. -/
theorem claim9_amended (eqo₁ eqo₂ : EqOrder)
    (h₁ : ∀ m : EqMap, (eqo₁ m).Perm m) (h₂ : ∀ m : EqMap, (eqo₂ m).Perm m) :
    (∀ b : SelectBuilder,
      (∀ f ∈ b.whereFragments ++ b.havingFragments, ∀ m, f.equalityMap = some m →
        m.length ≤ 1) →
      selectToSQLg eqo₁ b = selectToSQLg eqo₂ b)
    ∧ (∀ b : SelectDocBuilder,
      (∀ f ∈ b.sb.whereFragments ++ b.sb.havingFragments, ∀ m, f.equalityMap = some m →
        m.length ≤ 1) →
      docToSQLg eqo₁ b = docToSQLg eqo₂ b)
    ∧ (∀ b : InsertBuilder,
      (∀ f ∈ b.onConflictAction.whereFragments, ∀ m, f.equalityMap = some m →
        m.length ≤ 1) →
      insertToSQLg eqo₁ b = insertToSQLg eqo₂ b) := by
  have hagree : ∀ (frags : List WhereFragment),
      (∀ f ∈ frags, ∀ m, f.equalityMap = some m → m.length ≤ 1) →
      writeAndFragments eqo₁ frags = writeAndFragments eqo₂ frags := by
    intro frags hsmall
    refine writeAndFragments_congr eqo₁ eqo₂ frags (fun f hf m hm => ?_)
    rw [perm_len_le_one_eq (h₁ m) (hsmall f hf m hm),
      perm_len_le_one_eq (h₂ m) (hsmall f hf m hm)]
  refine ⟨?_, ?_, ?_⟩
  · intro b hsmall
    have hw := hagree b.whereFragments
      (fun f hf => hsmall f (List.mem_append_left _ hf))
    have hh := hagree b.havingFragments
      (fun f hf => hsmall f (List.mem_append_right _ hf))
    simp only [selectToSQLg, hw, hh]
  · intro b hsmall
    have hw := hagree b.sb.whereFragments
      (fun f hf => hsmall f (List.mem_append_left _ hf))
    have hh := hagree b.sb.havingFragments
      (fun f hf => hsmall f (List.mem_append_right _ hf))
    have hbody : docBodyState eqo₁ b = docBodyState eqo₂ b := by
      unfold docBodyState renderDocBody
      rw [hw, hh]
    simp only [docToSQLg, hbody]
  · intro b hsmall
    have hwc := hagree b.onConflictAction.whereFragments hsmall
    have hconf : onConflictClause eqo₁ b = onConflictClause eqo₂ b := by
      funext start
      unfold onConflictClause
      rw [hwc]
    simp only [insertToSQLg, hconf]

theorem claim9_amended_witness :
    selectToSQLg idOrder { columns := ["a"], tableFragments := [⟨"b", [], none⟩], whereFragments := [⟨"", [], some [("a", MapVal.val (Arg.int 1))]⟩] } = selectToSQLg (fun m => m.reverse) { columns := ["a"], tableFragments := [⟨"b", [], none⟩], whereFragments := [⟨"", [], some [("a", MapVal.val (Arg.int 1))]⟩] } :=
  (claim9_amended idOrder (fun m => m.reverse) (fun m => List.Perm.refl m)
    (fun m => List.reverse_perm m)).1
    { columns := ["a"], tableFragments := [⟨"b", [], none⟩], whereFragments := [⟨"", [], some [("a", MapVal.val (Arg.int 1))]⟩] }
    (by decide)

end Dat
